import Mathlib

/-! Daily English vocabulary service: embedding of `server.js` and `models/Word.js`.

The development embeds the daily-content routine of the server (`getTodayWords`,
`generateDailyWords`, `saveDailyWords`, the three request handlers) together with the
document schema of `models/Word.js`, and proves properties of that embedding.

Conventions of the embedding:

* JavaScript strings are Lean strings; text processing works on their character lists.
  Every pattern the code matches is ASCII, so code units and code points agree there.
* The number `parseInt` returns is the double nearest to the digits it reads; it is held
  as the integer that double equals, or as an infinity. The database query is represented
  for limits of magnitude below `2 ^ 53`.
* The collection behind the `Word` model is the list of its documents in insertion order.
* What the outside world contributes to one request (the answer of the language model,
  the behaviour of `JSON.parse`, the clock) is an explicit argument.
-/

namespace DailyVocab

/-! ## Text clean-up in `generateDailyWords` (server.js lines 79-82) -/

/-- The backtick character, U+0060. -/
def tick : Char := Char.ofNat 96

/-- White space and line terminators removed by `String.prototype.trim`. -/
def isJsWhitespace (c : Char) : Bool :=
  let n := c.toNat
  n = 9 || n = 10 || n = 11 || n = 12 || n = 13 || n = 32 || n = 160 || n = 5760 ||
  (8192 ≤ n && n ≤ 8202) || n = 8232 || n = 8233 || n = 8239 || n = 8287 ||
  n = 12288 || n = 65279

/-- `text.trim()` on a character list. -/
def jsTrim (l : List Char) : List Char :=
  ((l.dropWhile isJsWhitespace).reverse.dropWhile isJsWhitespace).reverse

/-- The tail of a regular-expression match `pat\n?`: one optional line feed is consumed. -/
def dropOptNewline : List Char → List Char
  | '\n' :: r => r
  | l => l

/-- `text.replace(/pat\n?/g, '')` for a literal pattern `pat`: scan from the left, at every
position where `pat` matches delete it with one optional following line feed and continue
after the match; otherwise keep the character. The fuel bounds the number of scan steps. -/
def removeAllAux (pat : List Char) : Nat → List Char → List Char
  | 0, l => l
  | _ + 1, [] => []
  | fuel + 1, c :: cs =>
    if pat.isPrefixOf (c :: cs) then
      removeAllAux pat fuel (dropOptNewline ((c :: cs).drop pat.length))
    else
      c :: removeAllAux pat fuel cs

/-- Global removal of `pat\n?`; the text length is enough fuel for the scan. -/
def removeAll (pat : List Char) (l : List Char) : List Char :=
  removeAllAux pat l.length l

/-- The opening fence the first regular expression matches. -/
def jsonFence : List Char := [tick, tick, tick, 'j', 's', 'o', 'n']

/-- The fence the second regular expression matches. -/
def plainFence : List Char := [tick, tick, tick]

/-- Lines 80-82: `text.trim()`, then both `replace` calls. -/
def cleanChars (l : List Char) : List Char :=
  removeAll plainFence (removeAll jsonFence (jsTrim l))

/-- The clean-up step of `generateDailyWords` on strings. -/
def cleanText (t : String) : String := ⟨cleanChars t.data⟩

/-- A list of characters contains three backticks in a row. -/
def hasTripleTick : List Char → Bool
  | [] => false
  | c :: cs => plainFence.isPrefixOf (c :: cs) || hasTripleTick cs

/-- A model response wrapped in a markdown code block. -/
def fenced (s : String) : String := "```json\n" ++ s ++ "\n```"

/-- The closing fence preceded by its line feed. -/
def closing : List Char := ['\n', tick, tick, tick]

/-- No position of the list starts a match of `pat`. -/
def matchFree (pat : List Char) : List Char → Bool
  | [] => true
  | c :: cs => !pat.isPrefixOf (c :: cs) && matchFree pat cs

/-! ## Data model (`models/Word.js`) -/

/-- An element of the `words` array read through `wordItemSchema`: each string path holds
`some` text or is absent; `sentences` is the array of strings. Paths outside the schema are
dropped by the mapper and are not represented. -/
structure WordEntry where
  word : Option String
  meaning : Option String
  pronunciation : Option String
  sentences : List String
  communicationTip : Option String
deriving DecidableEq, Repr

/-- A document of the `Word` model (`wordSchema`): `date`, `words`, `createdAt`. -/
structure DailyWordSet where
  date : String
  words : List WordEntry
  createdAt : Nat
deriving DecidableEq, Repr

/-- The collection of `Word` documents, in insertion order. -/
abbrev Store := List DailyWordSet

/-- `required: true` on a string path: the value is present and not the empty string. -/
def requiredOk : Option String → Bool
  | some s => !(s == "")
  | none => false

/-- Validation of one element of `words` against `wordItemSchema`: the four required
paths; `sentences` carries no validator. -/
def validEntry (w : WordEntry) : Bool :=
  requiredOk w.word && requiredOk w.meaning && requiredOk w.pronunciation &&
    requiredOk w.communicationTip

/-- An error object as the handlers see it. -/
structure JsError where
  name : String
  message : String
  stack : String
deriving DecidableEq, Repr

/-- What a request can throw. -/
inductive Failure where
  /-- An error thrown by a library: the language-model client, `JSON.parse`, the database
  driver. -/
  | external (e : JsError)
  /-- `new Error('Generated words are not in the expected format')`, server.js line 88. -/
  | badFormat
  /-- The validation error of `save()`: a required path of the schema is missing. -/
  | validation
  /-- The duplicate-key error of the unique index on `date`. -/
  | duplicateKey
deriving DecidableEq, Repr

/-! ## Store operations used by the server -/

/-- `Word.findOne({ date })`: the first document with that date. -/
def findOne (s : Store) (date : String) : Option DailyWordSet :=
  s.find? (fun r => r.date == date)

/-- `Word.deleteOne({ date })`: removes the first document with that date, if any. -/
def deleteOne (s : Store) (date : String) : Store :=
  s.eraseP (fun r => r.date == date)

/-- `wordDoc.save()` of a new document: schema validation first, then the insert, which the
unique index on `date` rejects when a document with that date is stored. The `required`
validator on `date` is not checked: `getTodayDate` never yields an empty string. -/
def save (s : Store) (doc : DailyWordSet) : Except Failure DailyWordSet × Store :=
  if !(doc.words.all validEntry) then (.error .validation, s)
  else if s.any (fun r => r.date == doc.date) then (.error .duplicateKey, s)
  else (.ok doc, s ++ [doc])

/-- `saveDailyWords(date, words)`, lines 102-115; `now` is `Date.now()` for `createdAt`.
The catch block logs and rethrows. -/
def saveDailyWords (s : Store) (date : String) (now : Nat) (words : List WordEntry) :
    Except Failure DailyWordSet × Store :=
  save s { date := date, words := words, createdAt := now }

/-! ## Word generation (`generateDailyWords`, lines 42-99) -/

/-- The value `JSON.parse` returns, as far as the code inspects it: an array of entries or
anything else. -/
inductive Parsed where
  | notArray
  | array (entries : List WordEntry)
deriving DecidableEq, Repr

/-- The answer of the language model to one call. -/
inductive GenOutcome where
  /-- The client threw (network, credential, blocked response). -/
  | callFailed (e : JsError)
  /-- The text of the response, `response.text()`. -/
  | responded (text : String)
deriving DecidableEq, Repr

/-- `generateDailyWords()`: clean the text, parse it, check `Array.isArray(words)` and
`words.length === 10`. `jsonParse` stands for `JSON.parse`, an error being the thrown
`SyntaxError`. The catch block logs and rethrows. -/
def generateDailyWords (jsonParse : String → Except JsError Parsed) (gen : GenOutcome) :
    Except Failure (List WordEntry) :=
  match gen with
  | .callFailed e => .error (.external e)
  | .responded text =>
    match jsonParse (cleanText text) with
    | .error e => .error (.external e)
    | .ok .notArray => .error .badFormat
    | .ok (.array words) =>
      if words.length ≠ 10 then .error .badFormat else .ok words

/-! ## The daily content service -/

deriving instance DecidableEq for Except

/-- The effect of one service call: what it returns or throws, the collection afterwards,
and how often `generateDailyWords` was called. -/
structure Effect where
  result : Except Failure DailyWordSet
  store : Store
  generatorCalls : Nat
deriving DecidableEq, Repr

/-- `getTodayWords()`, lines 118-131, with `today = getTodayDate()`. -/
def getTodayWords (jsonParse : String → Except JsError Parsed) (s : Store) (today : String)
    (now : Nat) (gen : GenOutcome) : Effect :=
  match findOne s today with
  | some wordDoc => { result := .ok wordDoc, store := s, generatorCalls := 0 }
  | none =>
    match generateDailyWords jsonParse gen with
    | .error e => { result := .error e, store := s, generatorCalls := 1 }
    | .ok words =>
      let saved := saveDailyWords s today now words
      { result := saved.1, store := saved.2, generatorCalls := 1 }

/-- The try block of `POST /api/generate-words`, lines 177-184: delete, generate, save. -/
def regenerate (jsonParse : String → Except JsError Parsed) (s : Store) (today : String)
    (now : Nat) (gen : GenOutcome) : Effect :=
  let s1 := deleteOne s today
  match generateDailyWords jsonParse gen with
  | .error e => { result := .error e, store := s1, generatorCalls := 1 }
  | .ok words =>
    let saved := saveDailyWords s1 today now words
    { result := saved.1, store := saved.2, generatorCalls := 1 }

/-- At most one document per date. -/
def UniqueDates (s : Store) : Prop := (s.map (fun r => r.date)).Nodup

/-- The documents stored for a date. -/
def recordsFor (s : Store) (date : String) : List DailyWordSet :=
  s.filter (fun r => r.date == date)

/-- A service call with what the outside world contributes to it. -/
inductive Call where
  | getOrCreate (today : String) (now : Nat) (gen : GenOutcome)
  | regenerate (today : String) (now : Nat) (gen : GenOutcome)

/-- The collection after one call. -/
def Call.run (jsonParse : String → Except JsError Parsed) (s : Store) : Call → Store
  | .getOrCreate today now gen => (getTodayWords jsonParse s today now gen).store
  | .regenerate today now gen => (DailyVocab.regenerate jsonParse s today now gen).store

/-- The collection after a sequence of calls, oldest first. -/
def runCalls (jsonParse : String → Except JsError Parsed) (s : Store) (calls : List Call) :
    Store :=
  calls.foldl (Call.run jsonParse) s

/-- The ways the generator step fails: the call throws, the text does not parse, the parsed
value is not an array, or the array does not have ten elements. -/
def GeneratorFails (parse : String → Except JsError Parsed) (gen : GenOutcome) : Prop :=
  (∃ e, gen = .callFailed e) ∨
  (∃ t e, gen = .responded t ∧ parse (cleanText t) = .error e) ∨
  (∃ t, gen = .responded t ∧ parse (cleanText t) = .ok .notArray) ∨
  (∃ t ws, gen = .responded t ∧ parse (cleanText t) = .ok (.array ws) ∧ ws.length ≠ 10)

/-! ## History (`GET /api/history`, lines 154-172) -/

/-- A number as `parseInt` returns it: `NaN`, a double holding an integer, or an infinity. -/
inductive JsNumber where
  | nan
  | finite (v : Int)
  | infinity (negative : Bool)
deriving DecidableEq, Repr

/-- The number of binary digits of a natural number; the fuel bounds the halvings. -/
def bitLengthAux : Nat → Nat → Nat
  | 0, _ => 0
  | fuel + 1, v => if v = 0 then 0 else bitLengthAux fuel (v / 2) + 1

/-- The number of binary digits of `v`; `v` halvings are enough. -/
def bitLength (v : Nat) : Nat := bitLengthAux v v

/-- The double nearest to a natural number, ties to the even significand; `none` is
`Infinity`. Below `2 ^ 53` every natural number is a double. -/
def roundToDouble (v : Nat) : Option Nat :=
  if v < 2 ^ 53 then some v
  else
    let q := 2 ^ (bitLength v - 53)
    let m := v / q
    let r := v % q
    let up := if 2 * r < q then m else if q < 2 * r then m + 1 else if m % 2 = 0 then m else m + 1
    if up * q < 2 ^ 1024 then some (up * q) else none

/-- The numeric value of a character as a digit, letters counting from ten. -/
def digitValue (c : Char) : Option Nat :=
  let n := c.toNat
  if 48 ≤ n ∧ n ≤ 57 then some (n - 48)
  else if 97 ≤ n ∧ n ≤ 122 then some (n - 87)
  else if 65 ≤ n ∧ n ≤ 90 then some (n - 55)
  else none

/-- The longest leading run of digits of the radix, as digit values. -/
def leadingDigits (radix : Nat) : List Char → List Nat
  | [] => []
  | c :: cs =>
    match digitValue c with
    | some v => if v < radix then v :: leadingDigits radix cs else []
    | none => []

/-- The number a list of digit values denotes, most significant digit first. -/
def digitsValue (radix : Nat) (ds : List Nat) : Nat :=
  ds.foldl (fun acc v => acc * radix + v) 0

/-- The sign step of `parseInt`: a leading `-` or `+` is consumed. -/
def splitSign : List Char → Bool × List Char
  | [] => (false, [])
  | c :: r => if c = '-' then (true, r) else if c = '+' then (false, r) else (false, c :: r)

/-- The radix step of `parseInt` without a radix argument: `0x` or `0X` selects 16. -/
def splitRadix : List Char → Nat × List Char
  | c :: x :: r => if c = '0' ∧ (x = 'x' ∨ x = 'X') then (16, r) else (10, c :: x :: r)
  | l => (10, l)

/-- `parseInt(text)` on a character list: skip white space, read the sign and the radix
mark, take the leading digits; no digit gives `NaN`, otherwise the double nearest to their
value, with the sign. -/
def parseIntChars (l : List Char) : JsNumber :=
  let signed := splitSign (l.dropWhile isJsWhitespace)
  let based := splitRadix signed.2
  let ds := leadingDigits based.1 based.2
  if ds.isEmpty then .nan
  else
    match roundToDouble (digitsValue based.1 ds) with
    | some v => .finite (if signed.1 then -(v : Int) else (v : Int))
    | none => .infinity signed.1

/-- `parseInt(req.query.limit)`: an absent parameter is `undefined`, which reads as the text
`undefined` and gives `NaN`. -/
def parseInt (q : Option String) : JsNumber :=
  match q with
  | none => .nan
  | some t => parseIntChars t.data

/-- `parseInt(req.query.limit) || 30`: `NaN` and `0` are falsy. -/
def historyLimit (q : Option String) : JsNumber :=
  match parseInt q with
  | .nan => .finite 30
  | .finite v => if v = 0 then .finite 30 else .finite v
  | .infinity negative => .infinity negative

/-- Binary comparison of two strings, the order of the `date` sort. -/
def charsLe : List Char → List Char → Bool
  | [], _ => true
  | _ :: _, [] => false
  | a :: as, b :: bs => a.toNat < b.toNat || (a.toNat == b.toNat && charsLe as bs)

/-- The order `sort({ date: -1 })` puts documents in: later dates first. -/
def dateDesc (a b : DailyWordSet) : Prop := charsLe b.date.data a.date.data = true

/-- The comparison of the sort is decidable. -/
instance dateDescDecidable : DecidableRel dateDesc :=
  fun a b => inferInstanceAs (Decidable (charsLe b.date.data a.date.data = true))

/-- `Word.find().sort({ date: -1 })`. -/
def sortByDateDesc (s : Store) : List DailyWordSet := s.insertionSort dateDesc

/-- `.limit(n)` of the query for an integer of magnitude below `2 ^ 53`: `0` means no limit,
a negative number is sent as its absolute value. What the driver and the database do with
a larger number or an infinity is not represented: the result is `none` there. -/
def applyLimit (n : JsNumber) (l : List DailyWordSet) : Option (List DailyWordSet) :=
  match n with
  | .finite v =>
    if v.natAbs < 2 ^ 53 then some (if v = 0 then l else l.take v.natAbs) else none
  | _ => none

/-- The try block of the history handler: the documents it answers with. -/
def history (s : Store) (q : Option String) : Option (List DailyWordSet) :=
  applyLimit (historyLimit q) (sortByDateDesc s)

/-- Later date first, and not the same date. -/
def strictDesc (a b : DailyWordSet) : Prop := dateDesc a b ∧ a.date ≠ b.date

/-! ### Limit texts

The ways a caller writes the limit parameter, used to state what the handler does with
them. -/

/-- The sign characters in front of the digits: `+` or nothing. -/
def plusChars (plus : Bool) : List Char := if plus then ['+'] else []

/-- The first character, if any, is not a digit of the radix. -/
def noDigitAhead (radix : Nat) : List Char → Bool
  | [] => true
  | c :: _ =>
    match digitValue c with
    | some v => !(decide (v < radix))
    | none => true

/-- The first character, if any, is not the radix mark `x` or `X`. -/
def noRadixMark : List Char → Bool
  | [] => true
  | c :: _ => !(c = 'x' || c = 'X')

/-- A limit written in decimal: white space, an optional `+`, leading zeros, the decimal
digits of `n`, then a tail. -/
def decimalLimitText (ws : List Char) (plus : Bool) (zeros n : Nat) (tail : List Char) :
    String :=
  ⟨ws ++ (plusChars plus ++ (List.replicate zeros '0' ++ (Nat.toDigits 10 n ++ tail)))⟩

/-- A limit written in hexadecimal: white space, an optional `+`, the mark `0x` or `0X`,
leading zeros, the hexadecimal digits of `n`, then a tail. -/
def hexLimitText (ws : List Char) (plus upperMark : Bool) (zeros n : Nat)
    (tail : List Char) : String :=
  ⟨ws ++ (plusChars plus ++ ('0' :: (if upperMark then 'X' else 'x') ::
    (List.replicate zeros '0' ++ (Nat.toDigits 16 n ++ tail))))⟩

/-- After the optional sign no number starts: the text ends, or `0x` is followed by no
hexadecimal digit, or the first character is not a decimal digit (and, when no sign was
written, neither white space nor a sign). -/
def noNumberAhead (signed : Bool) : List Char → Bool
  | [] => true
  | c :: r =>
    if c = '0' then
      match r with
      | x :: r2 => (x = 'x' || x = 'X') && noDigitAhead 16 r2
      | [] => false
    else
      noDigitAhead 10 [c] && (signed || !(isJsWhitespace c || c = '-' || c = '+'))

/-- A limit that is not a number: white space, an optional sign, and a tail in which no
number starts. -/
def nanLimitText (ws : List Char) (sign : Option Char) (tail : List Char) : String :=
  ⟨ws ++ (sign.toList ++ tail)⟩

/-! ## Request handlers -/

/-- The body of a response. -/
inductive Body where
  /-- `{ success: true, date, words }` -/
  | todayWords (date : String) (words : List WordEntry)
  /-- `{ success: true, history }` -/
  | history (history : List DailyWordSet)
  /-- `{ success: true, message, date, words }` -/
  | generated (message : String) (date : String) (words : List WordEntry)
  /-- `{ success: false, error }` -/
  | failure (error : String)
  /-- The page of the default error handler of the framework, with the text it shows. -/
  | errorPage (text : String)
deriving DecidableEq, Repr

/-- Status code and body sent to the client. -/
structure Response where
  status : Nat
  body : Body
deriving DecidableEq, Repr

/-- `GET /api/today-words`, lines 137-150: the answer for the outcome of the try block. -/
def todayWordsResponse (r : Except Failure DailyWordSet) : Response :=
  match r with
  | .ok wordDoc => { status := 200, body := .todayWords wordDoc.date wordDoc.words }
  | .error _ => { status := 500, body := .failure "Failed to fetch today's words" }

/-- `GET /api/history`, lines 155-171: the answer for the outcome of the try block. -/
def historyResponse (r : Except Failure (List DailyWordSet)) : Response :=
  match r with
  | .ok docs => { status := 200, body := .history docs }
  | .error _ => { status := 500, body := .failure "Failed to fetch history" }

/-- `POST /api/generate-words`, lines 176-198: the answer for the outcome of the try block. -/
def generateWordsResponse (r : Except Failure DailyWordSet) : Response :=
  match r with
  | .ok wordDoc =>
    { status := 200,
      body := .generated "New words generated successfully" wordDoc.date wordDoc.words }
  | .error _ => { status := 500, body := .failure "Failed to generate words" }

/-- The handler of `GET /api/today-words`. -/
def todayWordsHandler (jsonParse : String → Except JsError Parsed) (s : Store)
    (today : String) (now : Nat) (gen : GenOutcome) : Response × Store :=
  let e := getTodayWords jsonParse s today now gen
  (todayWordsResponse e.result, e.store)

/-- The try block of the history handler with the database in view: `fault` is the error
the query rejects with when the database cannot be reached; `none` as result is a limit
whose query is not represented. -/
def historyTry (s : Store) (q : Option String) (fault : Option JsError) :
    Option (Except Failure (List DailyWordSet)) :=
  match fault with
  | some e => some (.error (.external e))
  | none => (history s q).map .ok

/-- The handler of `GET /api/history`. -/
def historyHandler (s : Store) (q : Option String) (fault : Option JsError) :
    Option Response :=
  (historyTry s q fault).map historyResponse

/-- The handler of `POST /api/generate-words`. -/
def generateWordsHandler (jsonParse : String → Except JsError Parsed) (s : Store)
    (today : String) (now : Nat) (gen : GenOutcome) : Response × Store :=
  let e := regenerate jsonParse s today now gen
  (generateWordsResponse e.result, e.store)

/-! ### The middleware in front of the handlers (lines 14-16)

`express.json()` reads the body of every request that carries one with a JSON content type,
whatever the method and the path. The application registers no error handler, so an error
of the middleware is answered by the default error handler of the framework. -/

/-- `express.json()`: a request without a JSON body passes; a body is handed to the body
parser, whose error, if any, ends the request. -/
def expressJson (bodyParse : String → Option JsError) (body : Option String) :
    Option JsError :=
  match body with
  | none => none
  | some text => bodyParse text

/-- The default error handler for an error of the body parser: status 400 and a page that
shows the stack of the error, or only the status text when `NODE_ENV` is `production`. -/
def defaultErrorResponse (production : Bool) (e : JsError) : Response :=
  { status := 400, body := .errorPage (if production then "Bad Request" else e.stack) }

/-- A request to `GET /api/today-words`: middleware, then the handler. -/
def serveTodayWords (production : Bool) (bodyParse : String → Option JsError)
    (body : Option String) (jsonParse : String → Except JsError Parsed) (s : Store)
    (today : String) (now : Nat) (gen : GenOutcome) : Response × Store :=
  match expressJson bodyParse body with
  | some e => (defaultErrorResponse production e, s)
  | none => todayWordsHandler jsonParse s today now gen

/-- A request to `GET /api/history`: middleware, then the handler. -/
def serveHistory (production : Bool) (bodyParse : String → Option JsError)
    (body : Option String) (s : Store) (q : Option String) (fault : Option JsError) :
    Option Response :=
  match expressJson bodyParse body with
  | some e => some (defaultErrorResponse production e)
  | none => historyHandler s q fault

/-- A request to `POST /api/generate-words`: middleware, then the handler. -/
def serveGenerateWords (production : Bool) (bodyParse : String → Option JsError)
    (body : Option String) (jsonParse : String → Except JsError Parsed) (s : Store)
    (today : String) (now : Nat) (gen : GenOutcome) : Response × Store :=
  match expressJson bodyParse body with
  | some e => (defaultErrorResponse production e, s)
  | none => generateWordsHandler jsonParse s today now gen

/-! ## Sample values used to evaluate the embedding -/

/-- The entry `JSON.parse` yields for an empty object: every path absent. -/
def blankEntry : WordEntry :=
  { word := none, meaning := none, pronunciation := none, sentences := [],
    communicationTip := none }

/-- A complete entry. -/
def sampleEntry (w : String) : WordEntry :=
  { word := some w, meaning := some "a meaning", pronunciation := some "/x/",
    sentences := ["One.", "Two."], communicationTip := some "a tip" }

/-- Ten complete entries. -/
def tenEntries : List WordEntry :=
  ["candid", "brisk", "mellow", "eager", "ponder", "gist", "hunch", "quirk", "savvy",
    "wary"].map sampleEntry

/-- A response text of ten empty objects. -/
def tenBlankText : String :=
  "[\x7b\x7d,\x7b\x7d,\x7b\x7d,\x7b\x7d,\x7b\x7d,\x7b\x7d,\x7b\x7d,\x7b\x7d,\x7b\x7d,\x7b\x7d]"

/-- The error `JSON.parse` throws on malformed text. -/
def syntaxError : JsError :=
  { name := "SyntaxError", message := "Unexpected token", stack := "at JSON.parse" }

/-- A parser that knows the listed texts and throws a `SyntaxError` on every other one. -/
def parseTable (table : List (String × Parsed)) (t : String) : Except JsError Parsed :=
  match table.lookup t with
  | some v => .ok v
  | none => .error syntaxError

/-- A stored document for the first of January. -/
def oldDoc : DailyWordSet := { date := "2024-01-01", words := tenEntries, createdAt := 5 }

/-- A parser that rejects every text. -/
def rejectAll : String → Except JsError Parsed := parseTable []

/-- An error of the model client. -/
def networkError : JsError :=
  { name := "TypeError", message := "fetch failed", stack := "at generateContent" }

/-- A stored document that would not pass validation: one entry, all paths absent. -/
def brokenDoc : DailyWordSet := { date := "2024-01-01", words := [blankEntry], createdAt := 3 }

/-- Nine entries: one short of the expected count. -/
def nineEntries : List WordEntry := tenEntries.drop 1

/-- A stored document for the second of January. -/
def otherDoc : DailyWordSet := { date := "2024-01-02", words := tenEntries, createdAt := 6 }

/-- Ten complete entries different from `tenEntries`. -/
def freshEntries : List WordEntry :=
  ["vivid", "nudge", "blunt", "fussy", "grasp", "hasty", "knack", "lofty", "perky",
    "timid"].map sampleEntry

/-- A stored document for the third of January. -/
def thirdDoc : DailyWordSet := { date := "2024-01-03", words := tenEntries, createdAt := 8 }

/-- The value `parseIntChars` gives to a run of digits. -/
def numberOf (v : Nat) : JsNumber :=
  match roundToDouble v with
  | some w => .finite (w : Int)
  | none => .infinity false

/-- The stack of the error the body parser raises for the body `[`. -/
def openBracketError : JsError :=
  { name := "SyntaxError", message := "Unexpected end of JSON input",
    stack := "SyntaxError: Unexpected end of JSON input at JSON.parse at parse (body-parser)" }

/-- The stack of the error the body parser raises for the body `]`. -/
def closeBracketError : JsError :=
  { name := "SyntaxError", message := "Unexpected token ] in JSON at position 0",
    stack := "SyntaxError: Unexpected token ] in JSON at position 0 at JSON.parse at parse (body-parser)" }

/-- A body parser on a few bodies: `[` and `]` are malformed, every other body passes. -/
def sampleBodyParse (text : String) : Option JsError :=
  if text = "[" then some openBracketError
  else if text = "]" then some closeBracketError
  else none

/-! ## Lemmas on the text clean-up -/

theorem removeAllAux_matchFree (pat : List Char) :
    ∀ (l : List Char) (fuel : Nat), matchFree pat l = true → removeAllAux pat fuel l = l := by
  intro l
  induction l with
  | nil => intro fuel _; cases fuel <;> rfl
  | cons c cs ih =>
    intro fuel h
    cases fuel with
    | zero => rfl
    | succ f =>
      simp only [matchFree, Bool.and_eq_true, Bool.not_eq_true'] at h
      simp only [removeAllAux, h.1, Bool.false_eq_true, if_false, ih f h.2]

theorem removeAllAux_nil (pat : List Char) (fuel : Nat) : removeAllAux pat fuel [] = [] := by
  cases fuel <;> rfl

theorem length_dropOptNewline_le (l : List Char) : (dropOptNewline l).length ≤ l.length := by
  unfold dropOptNewline
  split
  · simp
  · exact Nat.le_refl _

/-- The scan never runs out of fuel: for a non-empty pattern every amount of fuel of at
least the length of the text gives the same result. -/
theorem removeAllAux_fuel (pat : List Char) (hpat : pat ≠ []) :
    ∀ (n : Nat) (l : List Char) (f1 f2 : Nat), l.length ≤ n → l.length ≤ f1 → l.length ≤ f2 →
      removeAllAux pat f1 l = removeAllAux pat f2 l := by
  have hlen : 1 ≤ pat.length := List.length_pos.mpr hpat
  intro n
  induction n with
  | zero =>
    intro l f1 f2 hn _ _
    have hl : l = [] := List.length_eq_zero.mp (Nat.le_zero.mp hn)
    rw [hl, removeAllAux_nil, removeAllAux_nil]
  | succ k ih =>
    intro l f1 f2 hn h1 h2
    cases l with
    | nil => rw [removeAllAux_nil, removeAllAux_nil]
    | cons c cs =>
      simp only [List.length_cons] at hn h1 h2
      obtain ⟨g1, rfl⟩ : ∃ g, f1 = g + 1 := ⟨f1 - 1, by omega⟩
      obtain ⟨g2, rfl⟩ : ∃ g, f2 = g + 1 := ⟨f2 - 1, by omega⟩
      simp only [removeAllAux]
      have hrest : (dropOptNewline ((c :: cs).drop pat.length)).length ≤ cs.length := by
        have h3 := length_dropOptNewline_le ((c :: cs).drop pat.length)
        have h4 : ((c :: cs).drop pat.length).length = cs.length + 1 - pat.length := by
          simp
        omega
      split
      · exact ih _ g1 g2 (by omega) (by omega) (by omega)
      · rw [ih cs g1 g2 (by omega) (by omega) (by omega)]

theorem tick_ne_newline : tick ≠ '\n' := by decide

theorem plainFence_not_head (c : Char) (cs rest : List Char)
    (h : plainFence.isPrefixOf (c :: cs) = false) :
    plainFence.isPrefixOf (c :: (cs ++ '\n' :: rest)) = false := by
  match cs, h with
  | [], _ =>
    simp [plainFence, List.isPrefixOf, tick_ne_newline]
  | [d], _ =>
    simp [plainFence, List.isPrefixOf, tick_ne_newline]
  | d :: e :: r, h =>
    simpa [plainFence, List.isPrefixOf] using h

theorem jsonFence_not_head (c : Char) (cs rest : List Char)
    (h : plainFence.isPrefixOf (c :: cs) = false) :
    jsonFence.isPrefixOf (c :: (cs ++ '\n' :: rest)) = false := by
  match cs, h with
  | [], _ =>
    simp [jsonFence, List.isPrefixOf, tick_ne_newline]
  | [d], _ =>
    simp [jsonFence, List.isPrefixOf, tick_ne_newline]
  | d :: e :: r, h =>
    simp only [plainFence, List.isPrefixOf, Bool.and_true] at h
    simp only [jsonFence, List.cons_append, List.isPrefixOf]
    revert h
    cases (tick == c) <;> cases (tick == d) <;> cases (tick == e) <;> simp

theorem matchFree_jsonFence_closing : matchFree jsonFence closing = true := by decide

theorem matchFree_jsonFence_append :
    ∀ s : List Char, hasTripleTick s = false → matchFree jsonFence (s ++ closing) = true := by
  intro s
  induction s with
  | nil => intro _; exact matchFree_jsonFence_closing
  | cons c cs ih =>
    intro h
    simp only [hasTripleTick, Bool.or_eq_false_iff] at h
    simp only [List.cons_append, matchFree, Bool.and_eq_true, Bool.not_eq_true']
    exact ⟨jsonFence_not_head c cs _ h.1, ih h.2⟩

theorem removeAllAux_plainFence_append :
    ∀ (s : List Char) (fuel : Nat), hasTripleTick s = false → s.length + 2 ≤ fuel →
      removeAllAux plainFence fuel (s ++ closing) = s ++ ['\n'] := by
  intro s
  induction s with
  | nil =>
    intro fuel _ hf
    obtain ⟨f, rfl⟩ : ∃ f, fuel = f + 2 := ⟨fuel - 2, by simp at hf; omega⟩
    simp [closing, plainFence, removeAllAux, List.isPrefixOf, dropOptNewline,
      removeAllAux_nil, tick_ne_newline.symm]
  | cons c cs ih =>
    intro fuel h hf
    simp only [hasTripleTick, Bool.or_eq_false_iff] at h
    obtain ⟨f, rfl⟩ : ∃ f, fuel = f + 1 := ⟨fuel - 1, by simp at hf; omega⟩
    have hno := plainFence_not_head c cs [tick, tick, tick] h.1
    have hrec := ih f h.2 (by simp at hf; omega)
    simp only [closing] at hrec
    simp only [closing, List.cons_append, removeAllAux, hno, Bool.false_eq_true, if_false,
      List.append_eq, hrec]

theorem jsTrim_fenced (s : List Char) :
    jsTrim (jsonFence ++ '\n' :: (s ++ closing)) = jsonFence ++ '\n' :: (s ++ closing) := by
  have h1 : (jsonFence ++ '\n' :: (s ++ closing)).dropWhile isJsWhitespace
      = jsonFence ++ '\n' :: (s ++ closing) := by
    simp [jsonFence, List.dropWhile, show isJsWhitespace tick = false by decide]
  have h2 : (jsonFence ++ '\n' :: (s ++ closing)).reverse
      = tick :: (tick :: tick :: '\n' :: s.reverse ++ ('\n' :: jsonFence.reverse)) := by
    simp [closing, jsonFence]
  unfold jsTrim
  rw [h1, h2, List.dropWhile_cons, if_neg (by decide), ← h2, List.reverse_reverse]

theorem cleanChars_fenced (s : List Char) (h : hasTripleTick s = false) :
    cleanChars (jsonFence ++ '\n' :: (s ++ closing)) = s ++ ['\n'] := by
  unfold cleanChars
  rw [jsTrim_fenced]
  have step : removeAll jsonFence (jsonFence ++ '\n' :: (s ++ closing)) = s ++ closing := by
    unfold removeAll
    have hl : (jsonFence ++ '\n' :: (s ++ closing)).length = (s ++ closing).length + 7 + 1 := by
      simp [jsonFence]
    rw [hl]
    have : removeAllAux jsonFence ((s ++ closing).length + 7 + 1)
        (jsonFence ++ '\n' :: (s ++ closing))
        = removeAllAux jsonFence ((s ++ closing).length + 7) (s ++ closing) := by
      simp [jsonFence, removeAllAux, List.isPrefixOf, dropOptNewline]
    rw [this]
    exact removeAllAux_matchFree _ _ _ (matchFree_jsonFence_append s h)
  rw [step]
  unfold removeAll
  exact removeAllAux_plainFence_append s _ h (by simp [closing])

theorem fenced_data (s : String) :
    (fenced s).data = jsonFence ++ '\n' :: (s.data ++ closing) := by
  simp [fenced, jsonFence, closing, tick]

/-! ## Lemmas on the store operations -/

theorem findOne_eq_none_iff (s : Store) (d : String) :
    findOne s d = none ↔ ∀ r ∈ s, r.date ≠ d := by
  simp [findOne, List.find?_eq_none]

theorem any_date_eq_false_iff (s : Store) (d : String) :
    s.any (fun r => r.date == d) = false ↔ ∀ r ∈ s, r.date ≠ d := by
  simp [List.any_eq_false]

theorem recordsFor_append (s t : Store) (d : String) :
    recordsFor (s ++ t) d = recordsFor s d ++ recordsFor t d := by
  simp [recordsFor]

theorem recordsFor_eq_nil_iff (s : Store) (d : String) :
    recordsFor s d = [] ↔ ∀ r ∈ s, r.date ≠ d := by
  simp [recordsFor, List.filter_eq_nil_iff]

theorem recordsFor_deleteOne_of_ne (s : Store) (d d2 : String) (h : d2 ≠ d) :
    recordsFor (deleteOne s d) d2 = recordsFor s d2 := by
  induction s with
  | nil => rfl
  | cons r rs ih =>
    by_cases hr : r.date = d
    · have : deleteOne (r :: rs) d = rs := by simp [deleteOne, List.eraseP_cons, hr]
      rw [this]
      have hne : ¬ r.date = d2 := by rw [hr]; exact fun e => h e.symm
      simp [recordsFor, List.filter_cons, hne]
    · have : deleteOne (r :: rs) d = r :: deleteOne rs d := by
        simp [deleteOne, List.eraseP_cons, hr]
      rw [this]
      simp only [recordsFor, List.filter_cons] at ih ⊢
      rw [ih]

theorem uniqueDates_deleteOne (s : Store) (d : String) (h : UniqueDates s) :
    UniqueDates (deleteOne s d) :=
  List.Nodup.sublist ((List.eraseP_sublist s).map _) h

theorem deleteOne_clears (s : Store) (d : String) (h : UniqueDates s) :
    ∀ r ∈ deleteOne s d, r.date ≠ d := by
  induction s with
  | nil => intro r hr; simp [deleteOne] at hr
  | cons a rs ih =>
    have hu : UniqueDates rs := (List.nodup_cons.mp h).2
    have ha : a.date ∉ rs.map (fun r => r.date) := (List.nodup_cons.mp h).1
    by_cases hr : a.date = d
    · have : deleteOne (a :: rs) d = rs := by simp [deleteOne, List.eraseP_cons, hr]
      rw [this]
      intro r hmem heq
      exact ha (List.mem_map.mpr ⟨r, hmem, by rw [heq, hr]⟩)
    · have : deleteOne (a :: rs) d = a :: deleteOne rs d := by
        simp [deleteOne, List.eraseP_cons, hr]
      rw [this]
      intro r hmem
      rcases List.mem_cons.mp hmem with rfl | hmem
      · exact hr
      · exact ih hu r hmem

theorem deleteOne_of_absent (s : Store) (d : String) (h : ∀ r ∈ s, r.date ≠ d) :
    deleteOne s d = s := by
  apply List.eraseP_of_forall_not
  intro r hr
  simpa using h r hr

theorem uniqueDates_append_one (s : Store) (doc : DailyWordSet) (h : UniqueDates s)
    (hfresh : ∀ r ∈ s, r.date ≠ doc.date) : UniqueDates (s ++ [doc]) := by
  unfold UniqueDates at *
  rw [List.map_append, List.nodup_append]
  refine ⟨h, by simp, ?_⟩
  intro a ha hb
  simp only [List.map_cons, List.map_nil, List.mem_singleton] at hb
  obtain ⟨r, hr, rfl⟩ := List.mem_map.mp ha
  exact hfresh r hr hb

/-- The collection after `save` is the one before, or the one before with the new document
appended when no document carried its date. -/
theorem save_store (s : Store) (doc : DailyWordSet) :
    (save s doc).2 = s ∨ ((∀ r ∈ s, r.date ≠ doc.date) ∧ (save s doc).2 = s ++ [doc]) := by
  unfold save
  split
  · exact Or.inl rfl
  · split
    · exact Or.inl rfl
    · rename_i hany
      right
      exact ⟨(any_date_eq_false_iff s doc.date).mp (by simpa using hany), rfl⟩

theorem uniqueDates_save (s : Store) (doc : DailyWordSet) (h : UniqueDates s) :
    UniqueDates (save s doc).2 := by
  rcases save_store s doc with e | ⟨hf, e⟩
  · rw [e]; exact h
  · rw [e]; exact uniqueDates_append_one s doc h hf

theorem save_ok (s : Store) (doc : DailyWordSet) (hvalid : ∀ w ∈ doc.words, validEntry w = true)
    (hfresh : ∀ r ∈ s, r.date ≠ doc.date) : save s doc = (.ok doc, s ++ [doc]) := by
  have h1 : doc.words.all validEntry = true := List.all_eq_true.mpr hvalid
  have h2 : s.any (fun r => r.date == doc.date) = false :=
    (any_date_eq_false_iff s doc.date).mpr hfresh
  simp [save, h1, h2]

theorem generateDailyWords_ok (parse : String → Except JsError Parsed) (text : String)
    (ws : List WordEntry) (hparse : parse (cleanText text) = .ok (.array ws))
    (hlen : ws.length = 10) : generateDailyWords parse (.responded text) = .ok ws := by
  simp [generateDailyWords, hparse, hlen]

theorem generateDailyWords_fails (parse : String → Except JsError Parsed) (gen : GenOutcome)
    (h : GeneratorFails parse gen) : ∃ f, generateDailyWords parse gen = .error f := by
  rcases h with ⟨e, rfl⟩ | ⟨t, e, rfl, hp⟩ | ⟨t, rfl, hp⟩ | ⟨t, ws, rfl, hp, hl⟩
  · exact ⟨_, rfl⟩
  · exact ⟨.external e, by simp [generateDailyWords, hp]⟩
  · exact ⟨.badFormat, by simp [generateDailyWords, hp]⟩
  · exact ⟨.badFormat, by simp [generateDailyWords, hp, hl]⟩

theorem getTodayWords_of_found (parse : String → Except JsError Parsed) (s : Store)
    (d : String) (now : Nat) (gen : GenOutcome) (doc : DailyWordSet)
    (h : findOne s d = some doc) :
    getTodayWords parse s d now gen = { result := .ok doc, store := s, generatorCalls := 0 } := by
  simp only [getTodayWords, h]

theorem uniqueDates_getTodayWords (parse : String → Except JsError Parsed) (s : Store)
    (d : String) (now : Nat) (gen : GenOutcome) (h : UniqueDates s) :
    UniqueDates (getTodayWords parse s d now gen).store := by
  unfold getTodayWords
  split
  · exact h
  · split
    · exact h
    · exact uniqueDates_save s _ h

theorem uniqueDates_regenerate (parse : String → Except JsError Parsed) (s : Store)
    (d : String) (now : Nat) (gen : GenOutcome) (h : UniqueDates s) :
    UniqueDates (regenerate parse s d now gen).store := by
  unfold regenerate
  split
  · exact uniqueDates_deleteOne s d h
  · exact uniqueDates_save _ _ (uniqueDates_deleteOne s d h)

theorem uniqueDates_run (parse : String → Except JsError Parsed) (s : Store) (c : Call)
    (h : UniqueDates s) : UniqueDates (Call.run parse s c) := by
  cases c with
  | getOrCreate d now gen => exact uniqueDates_getTodayWords parse s d now gen h
  | regenerate d now gen => exact uniqueDates_regenerate parse s d now gen h

theorem uniqueDates_runCalls (parse : String → Except JsError Parsed) (calls : List Call) :
    ∀ s : Store, UniqueDates s → UniqueDates (runCalls parse s calls) := by
  induction calls with
  | nil => intro s h; exact h
  | cons c cs ih =>
    intro s h
    exact ih _ (uniqueDates_run parse s c h)

/-! ## Lemmas on the history query -/

theorem char_eq_of_toNat_eq (a b : Char) (h : a.toNat = b.toNat) : a = b := by
  apply Char.ext
  apply UInt32.ext
  exact h

theorem charsLe_total : ∀ a b : List Char, charsLe a b = true ∨ charsLe b a = true := by
  intro a
  induction a with
  | nil => intro b; exact Or.inl (by cases b <;> rfl)
  | cons x xs ih =>
    intro b
    cases b with
    | nil => exact Or.inr rfl
    | cons y ys =>
      simp only [charsLe, Bool.or_eq_true, Bool.and_eq_true, decide_eq_true_eq, beq_iff_eq]
      rcases Nat.lt_trichotomy x.toNat y.toNat with h | h | h
      · exact Or.inl (Or.inl h)
      · rcases ih ys with h2 | h2
        · exact Or.inl (Or.inr ⟨h, h2⟩)
        · exact Or.inr (Or.inr ⟨h.symm, h2⟩)
      · exact Or.inr (Or.inl h)

theorem charsLe_trans : ∀ a b c : List Char,
    charsLe a b = true → charsLe b c = true → charsLe a c = true := by
  intro a
  induction a with
  | nil => intro b c _ _; cases c <;> rfl
  | cons x xs ih =>
    intro b c hab hbc
    cases b with
    | nil => simp [charsLe] at hab
    | cons y ys =>
      cases c with
      | nil => simp [charsLe] at hbc
      | cons z zs =>
        simp only [charsLe, Bool.or_eq_true, Bool.and_eq_true, decide_eq_true_eq,
          beq_iff_eq] at hab hbc ⊢
        rcases hab with h1 | ⟨h1, t1⟩ <;> rcases hbc with h2 | ⟨h2, t2⟩
        · exact Or.inl (by omega)
        · exact Or.inl (by omega)
        · exact Or.inl (by omega)
        · exact Or.inr ⟨by omega, ih ys zs t1 t2⟩

theorem charsLe_antisymm : ∀ a b : List Char,
    charsLe a b = true → charsLe b a = true → a = b := by
  intro a
  induction a with
  | nil => intro b _ hba; cases b with
    | nil => rfl
    | cons y ys => simp [charsLe] at hba
  | cons x xs ih =>
    intro b hab hba
    cases b with
    | nil => simp [charsLe] at hab
    | cons y ys =>
      simp only [charsLe, Bool.or_eq_true, Bool.and_eq_true, decide_eq_true_eq,
        beq_iff_eq] at hab hba
      rcases hab with h1 | ⟨h1, t1⟩ <;> rcases hba with h2 | ⟨h2, t2⟩
      · omega
      · omega
      · omega
      · rw [char_eq_of_toNat_eq x y h1, ih ys t1 t2]

theorem pairwise_strictDesc (l : List DailyWordSet) (hs : l.Pairwise dateDesc)
    (hn : UniqueDates l) : l.Pairwise strictDesc := by
  have hne : l.Pairwise (fun a b => a.date ≠ b.date) := List.pairwise_map.mp hn
  exact hs.and hne

theorem sortByDateDesc_unique (s l : List DailyWordSet) (hdistinct : UniqueDates s)
    (hperm : l.Perm s) (hsorted : l.Pairwise dateDesc) : sortByDateDesc s = l := by
  haveI htotal : IsTotal DailyWordSet dateDesc :=
    ⟨fun a b => charsLe_total b.date.data a.date.data⟩
  haveI htrans : IsTrans DailyWordSet dateDesc :=
    ⟨fun a b c hab hbc => charsLe_trans c.date.data b.date.data a.date.data hbc hab⟩
  haveI hanti : IsAntisymm DailyWordSet strictDesc :=
    ⟨fun a b hab hba => absurd
      (String.ext (charsLe_antisymm a.date.data b.date.data hba.1 hab.1)) hab.2⟩
  have hp : (sortByDateDesc s).Perm l := (List.perm_insertionSort dateDesc s).trans hperm.symm
  have hl : UniqueDates l := (hperm.map _).nodup_iff.mpr hdistinct
  have hs : UniqueDates (sortByDateDesc s) :=
    ((List.perm_insertionSort dateDesc s).map _).nodup_iff.mpr hdistinct
  exact List.eq_of_perm_of_sorted hp
    (pairwise_strictDesc _ (List.sorted_insertionSort dateDesc s) hs)
    (pairwise_strictDesc _ hsorted hl)

theorem digitValue_digitChar (d : Nat) (h : d < 16) : digitValue (Nat.digitChar d) = some d := by
  interval_cases d <;> rfl

theorem digitChar_plain (d : Nat) (h : d < 16) :
    isJsWhitespace (Nat.digitChar d) = false ∧ Nat.digitChar d ≠ '-' ∧
    Nat.digitChar d ≠ '+' ∧ Nat.digitChar d ≠ 'x' ∧ Nat.digitChar d ≠ 'X' := by
  interval_cases d <;> decide

theorem digitChar_eq_zero (d : Nat) (h : d < 16) (h0 : Nat.digitChar d = '0') : d = 0 := by
  revert h0
  interval_cases d <;> decide

theorem leadingDigits_of_noDigitAhead (radix : Nat) (tail : List Char)
    (h : noDigitAhead radix tail = true) : leadingDigits radix tail = [] := by
  cases tail with
  | nil => rfl
  | cons c r =>
    simp only [noDigitAhead] at h
    simp only [leadingDigits]
    cases hv : digitValue c with
    | none => rfl
    | some v =>
      rw [hv] at h
      have hlt : ¬ v < radix := by simpa using h
      simp [hlt]

theorem leadingDigits_digits (radix : Nat) (hr : radix ≤ 16) (tail : List Char)
    (htail : noDigitAhead radix tail = true) :
    ∀ ds : List Nat, (∀ d ∈ ds, d < radix) →
      leadingDigits radix (ds.map Nat.digitChar ++ tail) = ds := by
  intro ds
  induction ds with
  | nil => intro _; exact leadingDigits_of_noDigitAhead radix tail htail
  | cons d rest ih =>
    intro h
    have hd : d < radix := h d (List.mem_cons_self d rest)
    have hrest : ∀ x ∈ rest, x < radix := fun x hx => h x (List.mem_cons_of_mem d hx)
    have hrec := ih hrest
    simp only [List.map_cons, List.cons_append, leadingDigits,
      digitValue_digitChar d (by omega), hd, if_true, List.append_eq, hrec]

theorem dropWhile_whitespace_cons (ws : List Char) (c : Char) (r : List Char)
    (hws : ∀ x ∈ ws, isJsWhitespace x = true) (hc : isJsWhitespace c = false) :
    (ws ++ c :: r).dropWhile isJsWhitespace = c :: r := by
  induction ws with
  | nil => simp [List.dropWhile, hc]
  | cons w rest ih =>
    have hw : isJsWhitespace w = true := hws w (List.mem_cons_self w rest)
    have hrest : ∀ x ∈ rest, isJsWhitespace x = true :=
      fun x hx => hws x (List.mem_cons_of_mem w hx)
    simp only [List.cons_append, List.dropWhile_cons, hw, if_true]
    exact ih hrest

theorem dropWhile_whitespace_nil (ws : List Char)
    (hws : ∀ x ∈ ws, isJsWhitespace x = true) :
    (ws ++ []).dropWhile isJsWhitespace = [] := by
  induction ws with
  | nil => rfl
  | cons w rest ih =>
    have hw : isJsWhitespace w = true := hws w (List.mem_cons_self w rest)
    have hrest : ∀ x ∈ rest, isJsWhitespace x = true :=
      fun x hx => hws x (List.mem_cons_of_mem w hx)
    simp only [List.cons_append, List.dropWhile_cons, hw, if_true]
    exact ih hrest

/-- After white space and an optional `+`, the sign step leaves the digits and the tail. -/
theorem splitSign_plusChars (ws : List Char) (plus : Bool) (c : Char) (r : List Char)
    (hws : ∀ x ∈ ws, isJsWhitespace x = true)
    (hc : isJsWhitespace c = false ∧ c ≠ '-' ∧ c ≠ '+') :
    splitSign ((ws ++ (plusChars plus ++ c :: r)).dropWhile isJsWhitespace)
      = (false, c :: r) := by
  cases plus with
  | true =>
    have h1 : (ws ++ (plusChars true ++ c :: r)).dropWhile isJsWhitespace = '+' :: c :: r :=
      dropWhile_whitespace_cons ws '+' (c :: r) hws (by decide)
    rw [h1]
    simp [splitSign]
  | false =>
    have h1 : (ws ++ (plusChars false ++ c :: r)).dropWhile isJsWhitespace = c :: r :=
      dropWhile_whitespace_cons ws c r hws hc.1
    rw [h1]
    simp [splitSign, hc.2.1, hc.2.2]

theorem splitRadix_digits (d : Nat) (rest : List Nat) (tail : List Char)
    (hall : ∀ x ∈ d :: rest, x < 10)
    (hmark : rest = [] → d = 0 → noRadixMark tail = true) :
    splitRadix ((d :: rest).map Nat.digitChar ++ tail)
      = (10, (d :: rest).map Nat.digitChar ++ tail) := by
  have hd : d < 10 := hall d (List.mem_cons_self d rest)
  cases rest with
  | nil =>
    cases tail with
    | nil => rfl
    | cons t ts =>
      by_cases h0 : Nat.digitChar d = '0'
      · have hd0 : d = 0 := digitChar_eq_zero d (by omega) h0
        have hm := hmark rfl hd0
        simp only [noRadixMark, Bool.not_eq_true', Bool.or_eq_false_iff,
          decide_eq_false_iff_not] at hm
        simp [splitRadix, hm.1, hm.2]
      · simp [splitRadix, h0]
  | cons e more =>
    have he := digitChar_plain e (by
      have := hall e (List.mem_cons_of_mem d (List.mem_cons_self e more)); omega)
    simp [splitRadix, he.2.2.2.1, he.2.2.2.2]

theorem parseIntChars_decimal (ws : List Char) (plus : Bool) (ds : List Nat)
    (tail : List Char) (hws : ∀ x ∈ ws, isJsWhitespace x = true) (hne : ds ≠ [])
    (hall : ∀ x ∈ ds, x < 10) (htail : noDigitAhead 10 tail = true)
    (hmark : ds = [0] → noRadixMark tail = true) :
    parseIntChars (ws ++ (plusChars plus ++ (ds.map Nat.digitChar ++ tail)))
      = numberOf (digitsValue 10 ds) := by
  cases ds with
  | nil => exact absurd rfl hne
  | cons d rest =>
    have hd := digitChar_plain d (by
      have := hall d (List.mem_cons_self d rest); omega)
    have hsign := splitSign_plusChars ws plus (Nat.digitChar d)
      (rest.map Nat.digitChar ++ tail) hws ⟨hd.1, hd.2.1, hd.2.2.1⟩
    have hradix := splitRadix_digits d rest tail hall (by
      intro hr h0; apply hmark; rw [hr, h0])
    have hlead := leadingDigits_digits 10 (by decide) tail htail (d :: rest) hall
    simp only [List.map_cons, List.cons_append] at hsign hradix hlead ⊢
    unfold parseIntChars
    simp only [hsign, hradix, hlead, numberOf]
    cases roundToDouble (digitsValue 10 (d :: rest)) <;> simp

theorem parseIntChars_hex (ws : List Char) (plus upperMark : Bool) (ds : List Nat)
    (tail : List Char) (hws : ∀ x ∈ ws, isJsWhitespace x = true) (hne : ds ≠ [])
    (hall : ∀ x ∈ ds, x < 16) (htail : noDigitAhead 16 tail = true) :
    parseIntChars (ws ++ (plusChars plus ++
        ('0' :: (if upperMark then 'X' else 'x') :: (ds.map Nat.digitChar ++ tail))))
      = numberOf (digitsValue 16 ds) := by
  have hsign := splitSign_plusChars ws plus '0'
    ((if upperMark then 'X' else 'x') :: (ds.map Nat.digitChar ++ tail)) hws
    ⟨by decide, by decide, by decide⟩
  have hradix : splitRadix ('0' :: (if upperMark then 'X' else 'x') ::
      (ds.map Nat.digitChar ++ tail)) = (16, ds.map Nat.digitChar ++ tail) := by
    cases upperMark <;> simp [splitRadix]
  have hlead := leadingDigits_digits 16 (by decide) tail htail ds hall
  have hempty : ds.isEmpty = false := by
    cases ds with
    | nil => exact absurd rfl hne
    | cons d rest => rfl
  unfold parseIntChars
  simp only [hsign, hradix, hlead, hempty, numberOf]
  cases roundToDouble (digitsValue 16 ds) <;> simp

theorem digitsValue_snoc (radix : Nat) (ds : List Nat) (d : Nat) :
    digitsValue radix (ds ++ [d]) = digitsValue radix ds * radix + d := by
  simp [digitsValue, List.foldl_append]

theorem digitsValue_zeros (radix zeros : Nat) (ds : List Nat) :
    digitsValue radix (List.replicate zeros 0 ++ ds) = digitsValue radix ds := by
  have h : ∀ k : Nat, List.foldl (fun acc v => acc * radix + v) 0 (List.replicate k 0) = 0 := by
    intro k
    induction k with
    | zero => rfl
    | succ k ih => simpa [List.replicate_succ] using ih
  simp [digitsValue, List.foldl_append, h]

theorem replicate_zero_chars (zeros : Nat) :
    List.replicate zeros '0' = (List.replicate zeros 0).map Nat.digitChar := by
  simp [Nat.digitChar]

/-- The digits `Nat.toDigits` writes, for radix 10 and radix 16: they are digit values below
the radix, there is at least one, and they denote the number. -/
theorem toDigitsCore_digits (b : Nat) (hb : b = 10 ∨ b = 16) :
    ∀ (fuel n : Nat) (acc : List Char), n < fuel →
      ∃ ds : List Nat, Nat.toDigitsCore b fuel n acc = ds.map Nat.digitChar ++ acc ∧
        (∀ d ∈ ds, d < b) ∧ ds ≠ [] ∧ digitsValue b ds = n := by
  intro fuel
  induction fuel with
  | zero => intro n acc h; omega
  | succ f ih =>
    intro n acc h
    unfold Nat.toDigitsCore
    by_cases hq : n / b = 0
    · refine ⟨[n % b], ?_, ?_, by simp, ?_⟩
      · simp [hq]
      · intro d hd
        simp only [List.mem_singleton] at hd
        rcases hb with rfl | rfl <;> omega
      · simp only [digitsValue, List.foldl_cons, List.foldl_nil]
        rcases hb with rfl | rfl <;> omega
    · have hlt : n / b < f := by rcases hb with rfl | rfl <;> omega
      obtain ⟨ds, hds, hall, _, hval⟩ := ih (n / b) (Nat.digitChar (n % b) :: acc) hlt
      refine ⟨ds ++ [n % b], ?_, ?_, by simp, ?_⟩
      · simp [hq, hds]
      · intro d hd
        rcases List.mem_append.mp hd with hd | hd
        · exact hall d hd
        · simp only [List.mem_singleton] at hd
          rcases hb with rfl | rfl <;> omega
      · rw [digitsValue_snoc, hval]
        rcases hb with rfl | rfl <;> omega

theorem toDigits_digits (b : Nat) (hb : b = 10 ∨ b = 16) (n : Nat) :
    ∃ ds : List Nat, Nat.toDigits b n = ds.map Nat.digitChar ∧
      (∀ d ∈ ds, d < b) ∧ ds ≠ [] ∧ digitsValue b ds = n := by
  obtain ⟨ds, hds, hall, hne, hval⟩ := toDigitsCore_digits b hb (n + 1) n [] (Nat.lt_succ_self n)
  refine ⟨ds, ?_, hall, hne, hval⟩
  unfold Nat.toDigits
  rw [hds, List.append_nil]

theorem numberOf_small (n : Nat) (h : n < 2 ^ 53) : numberOf n = .finite (n : Int) := by
  have hr : roundToDouble n = some n := by
    unfold roundToDouble
    rw [if_pos h]
  simp only [numberOf, hr]

/-- What `parseInt` reads from a limit written in decimal. -/
theorem parseInt_decimalLimitText (ws : List Char) (plus : Bool) (zeros n : Nat)
    (tail : List Char) (hws : ∀ x ∈ ws, isJsWhitespace x = true)
    (htail : noDigitAhead 10 tail = true)
    (hmark : n = 0 → zeros = 0 → noRadixMark tail = true) :
    parseInt (some (decimalLimitText ws plus zeros n tail)) = numberOf n := by
  obtain ⟨ds, hds, hall, hne, hval⟩ := toDigits_digits 10 (Or.inl rfl) n
  have htext : (decimalLimitText ws plus zeros n tail).data
      = ws ++ (plusChars plus ++ ((List.replicate zeros 0 ++ ds).map Nat.digitChar ++ tail)) := by
    simp [decimalLimitText, hds, replicate_zero_chars]
  show parseIntChars (decimalLimitText ws plus zeros n tail).data = _
  rw [htext, parseIntChars_decimal ws plus (List.replicate zeros 0 ++ ds) tail hws
    (by simp [hne]) ?_ htail ?_, digitsValue_zeros, hval]
  · intro x hx
    rcases List.mem_append.mp hx with hx | hx
    · rw [(List.mem_replicate.mp hx).2]; decide
    · exact hall x hx
  · intro hone
    have hz : zeros = 0 := by
      cases zeros with
      | zero => rfl
      | succ k =>
        have hlen := congrArg List.length hone
        simp only [List.length_append, List.length_replicate, List.length_singleton] at hlen
        have : ds.length ≠ 0 := fun h0 => hne (List.length_eq_zero.mp h0)
        omega
    subst hz
    have hds0 : ds = [0] := by simpa using hone
    have hn0 : n = 0 := by rw [← hval, hds0]; rfl
    exact hmark hn0 rfl

/-- What `parseInt` reads from a limit written in hexadecimal. -/
theorem parseInt_hexLimitText (ws : List Char) (plus upperMark : Bool) (zeros n : Nat)
    (tail : List Char) (hws : ∀ x ∈ ws, isJsWhitespace x = true)
    (htail : noDigitAhead 16 tail = true) :
    parseInt (some (hexLimitText ws plus upperMark zeros n tail)) = numberOf n := by
  obtain ⟨ds, hds, hall, hne, hval⟩ := toDigits_digits 16 (Or.inr rfl) n
  have htext : (hexLimitText ws plus upperMark zeros n tail).data
      = ws ++ (plusChars plus ++ ('0' :: (if upperMark then 'X' else 'x') ::
          ((List.replicate zeros 0 ++ ds).map Nat.digitChar ++ tail))) := by
    simp [hexLimitText, hds, replicate_zero_chars]
  show parseIntChars (hexLimitText ws plus upperMark zeros n tail).data = _
  rw [htext, parseIntChars_hex ws plus upperMark (List.replicate zeros 0 ++ ds) tail hws
    (by simp [hne]) ?_ htail, digitsValue_zeros, hval]
  intro x hx
  rcases List.mem_append.mp hx with hx | hx
  · rw [(List.mem_replicate.mp hx).2]; decide
  · exact hall x hx

theorem parseInt_toString (n : Nat) : parseInt (some (toString n)) = numberOf n := by
  have h : toString n = decimalLimitText [] false 0 n [] := by
    apply String.ext
    show Nat.toDigits 10 n = _
    simp [decimalLimitText, plusChars]
  rw [h]
  exact parseInt_decimalLimitText [] false 0 n [] (by simp) rfl (fun _ _ => rfl)

theorem leadingDigits_after_sign (tail : List Char) (h : noNumberAhead true tail = true) :
    leadingDigits (splitRadix tail).1 (splitRadix tail).2 = [] := by
  cases tail with
  | nil => rfl
  | cons c r =>
    by_cases hc : c = '0'
    · subst hc
      cases r with
      | nil => simp [noNumberAhead] at h
      | cons x r2 =>
        simp only [noNumberAhead, if_true, Bool.and_eq_true, Bool.or_eq_true,
          decide_eq_true_eq] at h
        have hsplit : splitRadix ('0' :: x :: r2) = (16, r2) := by
          simp [splitRadix, h.1]
        rw [hsplit]
        exact leadingDigits_of_noDigitAhead 16 r2 h.2
    · simp only [noNumberAhead, hc, if_false, Bool.true_or, Bool.and_true] at h
      have hsplit : splitRadix (c :: r) = (10, c :: r) := by
        cases r <;> simp [splitRadix, hc]
      rw [hsplit]
      exact leadingDigits_of_noDigitAhead 10 (c :: r) h

theorem noNumberAhead_unsigned (c : Char) (r : List Char)
    (h : noNumberAhead false (c :: r) = true) :
    noNumberAhead true (c :: r) = true ∧ isJsWhitespace c = false ∧ c ≠ '-' ∧ c ≠ '+' := by
  by_cases hc : c = '0'
  · subst hc
    refine ⟨?_, by decide, by decide, by decide⟩
    simpa [noNumberAhead] using h
  · simp only [noNumberAhead, hc, if_false, Bool.false_or, Bool.and_eq_true,
      Bool.not_eq_true', Bool.or_eq_false_iff, decide_eq_false_iff_not] at h
    refine ⟨?_, h.2.1.1, h.2.1.2, h.2.2⟩
    simp only [noNumberAhead, hc, if_false, Bool.true_or, Bool.and_true]
    exact h.1

/-- What `parseInt` reads from a limit in which no number starts. -/
theorem parseInt_nanLimitText (ws : List Char) (sign : Option Char) (tail : List Char)
    (hws : ∀ x ∈ ws, isJsWhitespace x = true)
    (hsign : sign = none ∨ sign = some '+' ∨ sign = some '-')
    (htail : noNumberAhead sign.isSome tail = true) :
    parseInt (some (nanLimitText ws sign tail)) = .nan := by
  show parseIntChars (ws ++ (sign.toList ++ tail)) = .nan
  have hfinish : ∀ (neg : Bool) (body : List Char),
      splitSign ((ws ++ (sign.toList ++ tail)).dropWhile isJsWhitespace) = (neg, body) →
      noNumberAhead true body = true → parseIntChars (ws ++ (sign.toList ++ tail)) = .nan := by
    intro neg body hs hb
    unfold parseIntChars
    simp only [hs, leadingDigits_after_sign body hb, List.isEmpty_nil, if_true]
  rcases hsign with rfl | rfl | rfl
  · cases tail with
    | nil =>
      apply hfinish false [] _ rfl
      show splitSign ((ws ++ []).dropWhile isJsWhitespace) = _
      rw [dropWhile_whitespace_nil ws hws]
      rfl
    | cons c r =>
      obtain ⟨h1, h2, h3, h4⟩ := noNumberAhead_unsigned c r htail
      apply hfinish false (c :: r) _ h1
      show splitSign ((ws ++ c :: r).dropWhile isJsWhitespace) = _
      rw [dropWhile_whitespace_cons ws c r hws h2]
      simp [splitSign, h3, h4]
  · apply hfinish false tail _ htail
    show splitSign ((ws ++ '+' :: tail).dropWhile isJsWhitespace) = _
    rw [dropWhile_whitespace_cons ws '+' tail hws (by decide)]
    simp [splitSign]
  · apply hfinish true tail _ htail
    show splitSign ((ws ++ '-' :: tail).dropWhile isJsWhitespace) = _
    rw [dropWhile_whitespace_cons ws '-' tail hws (by decide)]
    simp [splitSign]

theorem history_of_finite (s : Store) (q : Option String) (n : Nat)
    (hparse : parseInt q = .finite (n : Int)) (hpos : 0 < n) (hsafe : n < 2 ^ 53) :
    history s q = some ((sortByDateDesc s).take n) := by
  have hn : (n : Int) ≠ 0 := by omega
  unfold history historyLimit
  rw [hparse]
  simp only [hn, if_false, applyLimit, Int.natAbs_ofNat, hsafe, if_true]

theorem history_of_zero (s : Store) (q : Option String)
    (hparse : parseInt q = .finite 0) :
    history s q = some ((sortByDateDesc s).take 30) := by
  unfold history historyLimit
  rw [hparse]
  simp [applyLimit]

theorem history_of_nan (s : Store) (q : Option String) (hparse : parseInt q = .nan) :
    history s q = some ((sortByDateDesc s).take 30) := by
  unfold history historyLimit
  rw [hparse]
  simp [applyLimit]

theorem numberOf_zero : numberOf 0 = .finite 0 := numberOf_small 0 (by decide)

/-- The digits are rounded to the nearest double, ties to even, and a `-` negates: sample
values of `parseInt` beyond and below `2 ^ 53`. -/
theorem parseInt_samples :
    parseInt (some "9007199254740993") = .finite 9007199254740992 ∧
    parseInt (some "9007199254740995") = .finite 9007199254740996 ∧
    parseInt (some "-12") = .finite (-12) ∧
    parseInt (some "0x") = .nan ∧
    parseInt (some "12abc") = .finite 12 := by
  decide!

/-! ## The claims -/

/-- Claim C1 fails as stated: with an empty collection and a response that parses to a
list of exactly ten entries, all of them empty objects, `getTodayWords` calls the generator
once, `save()` rejects the document because the required paths are missing, the call fails
and nothing is stored. -/
theorem getTodayWords_rejects_blank_entries :
    findOne [] "2024-01-01" = none ∧
    parseTable [(tenBlankText, .array (List.replicate 10 blankEntry))] (cleanText tenBlankText)
      = .ok (.array (List.replicate 10 blankEntry)) ∧
    (List.replicate 10 blankEntry).length = 10 ∧
    getTodayWords (parseTable [(tenBlankText, .array (List.replicate 10 blankEntry))]) []
      "2024-01-01" 7 (.responded tenBlankText)
      = { result := .error .validation, store := [], generatorCalls := 1 } := by
  decide

/-- Claim C1, amended: when no document is stored for `d` and the response parses to a
list of exactly ten entries each of which has its four required paths, `getTodayWords`
succeeds, calls the generator once, returns the document with date `d` and exactly those
entries in order, and the collection afterwards is the one before plus that document, the
documents of every other date being untouched. -/
theorem getTodayWords_creates (parse : String → Except JsError Parsed) (s : Store)
    (d : String) (now : Nat) (text : String) (ws : List WordEntry)
    (habsent : findOne s d = none)
    (hparse : parse (cleanText text) = .ok (.array ws))
    (hlen : ws.length = 10)
    (hvalid : ∀ w ∈ ws, validEntry w = true) :
    getTodayWords parse s d now (.responded text)
      = { result := .ok { date := d, words := ws, createdAt := now },
          store := s ++ [{ date := d, words := ws, createdAt := now }],
          generatorCalls := 1 } ∧
    (∀ d2, d2 ≠ d →
      recordsFor (getTodayWords parse s d now (.responded text)).store d2 = recordsFor s d2) := by
  have hfresh := (findOne_eq_none_iff s d).mp habsent
  have hsave : saveDailyWords s d now ws
      = (.ok { date := d, words := ws, createdAt := now },
          s ++ [{ date := d, words := ws, createdAt := now }]) :=
    save_ok s _ hvalid hfresh
  have hrun : getTodayWords parse s d now (.responded text)
      = { result := .ok { date := d, words := ws, createdAt := now },
          store := s ++ [{ date := d, words := ws, createdAt := now }],
          generatorCalls := 1 } := by
    simp only [getTodayWords, habsent, generateDailyWords_ok parse text ws hparse hlen, hsave]
  refine ⟨hrun, ?_⟩
  intro d2 hd2
  rw [hrun]
  have hne : ¬ d = d2 := fun e => hd2 e.symm
  simp [recordsFor, hne]

theorem getTodayWords_creates_witness :
    getTodayWords (parseTable [("[ten entries]", .array tenEntries)]) [] "2024-01-01" 7
      (.responded "[ten entries]")
      = { result := .ok { date := "2024-01-01", words := tenEntries, createdAt := 7 },
          store := [] ++ [{ date := "2024-01-01", words := tenEntries, createdAt := 7 }],
          generatorCalls := 1 } ∧
    (∀ d2, d2 ≠ "2024-01-01" →
      recordsFor (getTodayWords (parseTable [("[ten entries]", .array tenEntries)]) []
        "2024-01-01" 7 (.responded "[ten entries]")).store d2 = recordsFor [] d2) :=
  getTodayWords_creates (parseTable [("[ten entries]", .array tenEntries)]) [] "2024-01-01" 7
    "[ten entries]" tenEntries (by decide) (by decide) (by decide) (by decide)

/-- Claim C2: after a successful `getTodayWords` for `d`, a second call for `d` on the
resulting collection succeeds whatever the parser, the clock and the generator do, returns
the same document (so the same words), calls the generator zero times, and leaves the
collection unchanged. The stored document is not validated again: nothing is assumed about
its entries. -/
theorem getTodayWords_idempotent (parse : String → Except JsError Parsed) (s : Store)
    (d : String) (now : Nat) (gen : GenOutcome) (doc : DailyWordSet)
    (hfirst : (getTodayWords parse s d now gen).result = .ok doc)
    (parse2 : String → Except JsError Parsed) (now2 : Nat) (gen2 : GenOutcome) :
    getTodayWords parse2 (getTodayWords parse s d now gen).store d now2 gen2
      = { result := .ok doc, store := (getTodayWords parse s d now gen).store,
          generatorCalls := 0 } := by
  have hfound : findOne (getTodayWords parse s d now gen).store d = some doc := by
    unfold getTodayWords at hfirst ⊢
    cases hf : findOne s d with
    | some found =>
      simp only [hf] at hfirst ⊢
      cases hfirst
      rfl
    | none =>
      simp only [hf] at hfirst ⊢
      cases hg : generateDailyWords parse gen with
      | error e => simp [hg] at hfirst
      | ok ws =>
        simp only [hg] at hfirst ⊢
        have hfresh := (findOne_eq_none_iff s d).mp hf
        unfold saveDailyWords save at hfirst ⊢
        split at hfirst
        · cases hfirst
        · split at hfirst
          · cases hfirst
          · rename_i h1 h2
            cases hfirst
            simp only [h1, h2, if_false, Bool.false_eq_true]
            simp only [findOne, List.find?_append]
            have : List.find? (fun r => r.date == d) s = none := hf
            rw [this]
            simp
  generalize (getTodayWords parse s d now gen).store = s1 at hfound
  exact getTodayWords_of_found parse2 s1 d now2 gen2 doc hfound

theorem getTodayWords_idempotent_witness :
    (getTodayWords rejectAll [brokenDoc] "2024-01-01" 7 (.callFailed networkError)).result
      = .ok brokenDoc ∧
    getTodayWords rejectAll
        (getTodayWords rejectAll [brokenDoc] "2024-01-01" 7 (.callFailed networkError)).store
        "2024-01-01" 9 (.callFailed networkError)
      = { result := .ok brokenDoc,
          store := (getTodayWords rejectAll [brokenDoc] "2024-01-01" 7
            (.callFailed networkError)).store,
          generatorCalls := 0 } :=
  ⟨by decide, getTodayWords_idempotent rejectAll [brokenDoc] "2024-01-01" 7
    (.callFailed networkError) brokenDoc (by decide) rejectAll 9 (.callFailed networkError)⟩

/-- Claim C3: when no document is stored for `d` and the generator step fails (the call
throws, the text does not parse, the value is not an array, or the array does not have ten
elements), `getTodayWords` fails and the collection is exactly the one before: no document
is stored for `d`. -/
theorem getTodayWords_generator_failure (parse : String → Except JsError Parsed) (s : Store)
    (d : String) (now : Nat) (gen : GenOutcome)
    (habsent : findOne s d = none) (hfail : GeneratorFails parse gen) :
    (∃ f, (getTodayWords parse s d now gen).result = .error f) ∧
    (getTodayWords parse s d now gen).store = s ∧
    findOne (getTodayWords parse s d now gen).store d = none := by
  obtain ⟨f, hf⟩ := generateDailyWords_fails parse gen hfail
  have hrun : getTodayWords parse s d now gen
      = { result := .error f, store := s, generatorCalls := 1 } := by
    simp only [getTodayWords, habsent, hf]
  rw [hrun]
  exact ⟨⟨f, rfl⟩, rfl, habsent⟩

theorem getTodayWords_generator_failure_witness :
    (∃ f, (getTodayWords (parseTable [("[nine]", .array nineEntries)]) [] "2024-01-01" 7
      (.responded "[nine]")).result = .error f) ∧
    (getTodayWords (parseTable [("[nine]", .array nineEntries)]) [] "2024-01-01" 7
      (.responded "[nine]")).store = [] ∧
    findOne (getTodayWords (parseTable [("[nine]", .array nineEntries)]) [] "2024-01-01" 7
      (.responded "[nine]")).store "2024-01-01" = none :=
  getTodayWords_generator_failure (parseTable [("[nine]", .array nineEntries)]) []
    "2024-01-01" 7 (.responded "[nine]") (by decide)
    (Or.inr (Or.inr (Or.inr ⟨"[nine]", nineEntries, rfl, by decide, by decide⟩)))

/-- Claim C4 fails as stated: with a document stored for `d` and a generator call that
throws, the regenerate handler fails, yet the document for `d` has been deleted before the
generator ran, so the collection differs from the one before. -/
theorem regenerate_failure_loses_record :
    GeneratorFails rejectAll (.callFailed networkError) ∧
    findOne [oldDoc] "2024-01-01" = some oldDoc ∧
    regenerate rejectAll [oldDoc] "2024-01-01" 7 (.callFailed networkError)
      = { result := .error (.external networkError), store := [], generatorCalls := 1 } ∧
    (regenerate rejectAll [oldDoc] "2024-01-01" 7 (.callFailed networkError)).store
      ≠ [oldDoc] :=
  ⟨Or.inl ⟨networkError, rfl⟩, by decide, by decide, by decide⟩

/-- Claim C4, amended: when the generator step fails during regenerate, the operation
fails and the collection afterwards is the one before with the first document for `d`
deleted; documents of every other date are untouched, and the collection equals the one
before when it held no document for `d`. -/
theorem regenerate_generator_failure (parse : String → Except JsError Parsed) (s : Store)
    (d : String) (now : Nat) (gen : GenOutcome) (hfail : GeneratorFails parse gen) :
    (∃ f, (regenerate parse s d now gen).result = .error f) ∧
    (regenerate parse s d now gen).store = deleteOne s d ∧
    (∀ d2, d2 ≠ d → recordsFor (regenerate parse s d now gen).store d2 = recordsFor s d2) ∧
    (findOne s d = none → (regenerate parse s d now gen).store = s) := by
  obtain ⟨f, hf⟩ := generateDailyWords_fails parse gen hfail
  have hrun : regenerate parse s d now gen
      = { result := .error f, store := deleteOne s d, generatorCalls := 1 } := by
    simp only [regenerate, hf]
  rw [hrun]
  refine ⟨⟨f, rfl⟩, rfl, ?_, ?_⟩
  · intro d2 hd2
    exact recordsFor_deleteOne_of_ne s d d2 hd2
  · intro habsent
    exact deleteOne_of_absent s d ((findOne_eq_none_iff s d).mp habsent)

theorem regenerate_generator_failure_witness :
    (∃ f, (regenerate rejectAll [oldDoc, otherDoc] "2024-01-01" 7
      (.responded "oops")).result = .error f) ∧
    (regenerate rejectAll [oldDoc, otherDoc] "2024-01-01" 7 (.responded "oops")).store
      = deleteOne [oldDoc, otherDoc] "2024-01-01" ∧
    (∀ d2, d2 ≠ "2024-01-01" →
      recordsFor (regenerate rejectAll [oldDoc, otherDoc] "2024-01-01" 7
        (.responded "oops")).store d2 = recordsFor [oldDoc, otherDoc] d2) ∧
    (findOne [oldDoc, otherDoc] "2024-01-01" = none →
      (regenerate rejectAll [oldDoc, otherDoc] "2024-01-01" 7 (.responded "oops")).store
        = [oldDoc, otherDoc]) :=
  regenerate_generator_failure rejectAll [oldDoc, otherDoc] "2024-01-01" 7 (.responded "oops")
    (Or.inr (Or.inl ⟨"oops", syntaxError, rfl, by decide⟩))

/-- Claim C5 fails as stated: with one document stored for `d` and a response that parses
to a list of exactly ten entries, all empty objects, regenerate deletes the stored document,
`save()` rejects the new one, the operation fails and no document for `d` is left. -/
theorem regenerate_rejects_blank_entries :
    UniqueDates [oldDoc] ∧
    parseTable [(tenBlankText, .array (List.replicate 10 blankEntry))] (cleanText tenBlankText)
      = .ok (.array (List.replicate 10 blankEntry)) ∧
    (List.replicate 10 blankEntry).length = 10 ∧
    regenerate (parseTable [(tenBlankText, .array (List.replicate 10 blankEntry))]) [oldDoc]
      "2024-01-01" 7 (.responded tenBlankText)
      = { result := .error .validation, store := [], generatorCalls := 1 } ∧
    recordsFor (regenerate (parseTable [(tenBlankText, .array (List.replicate 10 blankEntry))])
      [oldDoc] "2024-01-01" 7 (.responded tenBlankText)).store "2024-01-01" = [] := by
  refine ⟨?_, by decide, by decide, by decide, by decide⟩
  unfold UniqueDates
  decide

/-- Claim C5, amended: when the collection holds at most one document per date and the
response parses to a list of exactly ten entries each of which has its four required paths,
regenerate succeeds, afterwards exactly one document is stored for `d`, holding the newly
generated entries, and the documents of every other date are unchanged. -/
theorem regenerate_replaces (parse : String → Except JsError Parsed) (s : Store)
    (d : String) (now : Nat) (text : String) (ws : List WordEntry)
    (hunique : UniqueDates s)
    (hparse : parse (cleanText text) = .ok (.array ws))
    (hlen : ws.length = 10)
    (hvalid : ∀ w ∈ ws, validEntry w = true) :
    regenerate parse s d now (.responded text)
      = { result := .ok { date := d, words := ws, createdAt := now },
          store := deleteOne s d ++ [{ date := d, words := ws, createdAt := now }],
          generatorCalls := 1 } ∧
    recordsFor (regenerate parse s d now (.responded text)).store d
      = [{ date := d, words := ws, createdAt := now }] ∧
    (∀ d2, d2 ≠ d →
      recordsFor (regenerate parse s d now (.responded text)).store d2 = recordsFor s d2) := by
  have hfresh := deleteOne_clears s d hunique
  have hsave : saveDailyWords (deleteOne s d) d now ws
      = (.ok { date := d, words := ws, createdAt := now },
          deleteOne s d ++ [{ date := d, words := ws, createdAt := now }]) :=
    save_ok (deleteOne s d) _ hvalid hfresh
  have hrun : regenerate parse s d now (.responded text)
      = { result := .ok { date := d, words := ws, createdAt := now },
          store := deleteOne s d ++ [{ date := d, words := ws, createdAt := now }],
          generatorCalls := 1 } := by
    simp only [regenerate, generateDailyWords_ok parse text ws hparse hlen, hsave]
  refine ⟨hrun, ?_, ?_⟩
  · rw [hrun]
    show recordsFor (deleteOne s d ++ _) d = _
    rw [recordsFor_append, (recordsFor_eq_nil_iff _ d).mpr hfresh]
    simp [recordsFor]
  · intro d2 hd2
    rw [hrun]
    show recordsFor (deleteOne s d ++ _) d2 = _
    rw [recordsFor_append, recordsFor_deleteOne_of_ne s d d2 hd2]
    have hne : ¬ d = d2 := fun e => hd2 e.symm
    simp [recordsFor, hne]

theorem regenerate_replaces_witness :
    regenerate (parseTable [("[fresh]", .array freshEntries)]) [oldDoc, otherDoc]
        "2024-01-01" 7 (.responded "[fresh]")
      = { result := .ok { date := "2024-01-01", words := freshEntries, createdAt := 7 },
          store := deleteOne [oldDoc, otherDoc] "2024-01-01"
            ++ [{ date := "2024-01-01", words := freshEntries, createdAt := 7 }],
          generatorCalls := 1 } ∧
    recordsFor (regenerate (parseTable [("[fresh]", .array freshEntries)]) [oldDoc, otherDoc]
        "2024-01-01" 7 (.responded "[fresh]")).store "2024-01-01"
      = [{ date := "2024-01-01", words := freshEntries, createdAt := 7 }] ∧
    (∀ d2, d2 ≠ "2024-01-01" →
      recordsFor (regenerate (parseTable [("[fresh]", .array freshEntries)])
        [oldDoc, otherDoc] "2024-01-01" 7 (.responded "[fresh]")).store d2
        = recordsFor [oldDoc, otherDoc] d2) :=
  regenerate_replaces (parseTable [("[fresh]", .array freshEntries)]) [oldDoc, otherDoc]
    "2024-01-01" 7 "[fresh]" freshEntries (by unfold UniqueDates; decide) (by decide)
    (by decide) (by decide)

/-- Claim C6 fails as stated: with one stored document and the limit parameter `0`, the
parsed limit is falsy and replaced by 30, so the history holds one document, more than the
limit of zero. -/
theorem history_limit_zero_returns_record :
    history [oldDoc] (some (toString 0)) = some [oldDoc] ∧
    ¬ [oldDoc].length ≤ 0 := by
  decide

/-- Claim C6, amended: for every collection and every limit parameter that reads as a
positive integer `n` below `2 ^ 53` (the plain decimal text, or white space, an optional
`+`, leading zeros and the digits in decimal or after `0x` in hexadecimal, followed by text
that does not continue the digits) the history holds at most `n` documents; for a parameter
that reads as `0` the default of 30 applies and the history holds at most 30 documents. -/
theorem history_length_le_limit (s : Store) (n : Nat) (hpos : 0 < n) (hsafe : n < 2 ^ 53)
    (ws : List Char) (plus upperMark : Bool) (zeros : Nat) (tail hexTail : List Char)
    (hws : ∀ x ∈ ws, isJsWhitespace x = true)
    (htail : noDigitAhead 10 tail = true) (hhexTail : noDigitAhead 16 hexTail = true) :
    (∃ docs, history s (some (toString n)) = some docs ∧ docs.length ≤ n) ∧
    (∃ docs, history s (some (decimalLimitText ws plus zeros n tail)) = some docs ∧
      docs.length ≤ n) ∧
    (∃ docs, history s (some (hexLimitText ws plus upperMark zeros n hexTail)) = some docs ∧
      docs.length ≤ n) ∧
    (∃ docs, history s (some (toString 0)) = some docs ∧ docs.length ≤ 30) ∧
    ((zeros = 0 → noRadixMark tail = true) →
      ∃ docs, history s (some (decimalLimitText ws plus zeros 0 tail)) = some docs ∧
        docs.length ≤ 30) ∧
    (∃ docs, history s (some (hexLimitText ws plus upperMark zeros 0 hexTail)) = some docs ∧
      docs.length ≤ 30) := by
  have hfin : numberOf n = .finite (n : Int) := numberOf_small n hsafe
  refine ⟨⟨_, history_of_finite s _ n ?_ hpos hsafe, List.length_take_le n _⟩,
    ⟨_, history_of_finite s _ n ?_ hpos hsafe, List.length_take_le n _⟩,
    ⟨_, history_of_finite s _ n ?_ hpos hsafe, List.length_take_le n _⟩,
    ⟨_, history_of_zero s _ ?_, List.length_take_le 30 _⟩,
    fun hmark => ⟨_, history_of_zero s _ ?_, List.length_take_le 30 _⟩,
    ⟨_, history_of_zero s _ ?_, List.length_take_le 30 _⟩⟩
  · rw [parseInt_toString, hfin]
  · rw [parseInt_decimalLimitText ws plus zeros n tail hws htail (fun h0 => by omega), hfin]
  · rw [parseInt_hexLimitText ws plus upperMark zeros n hexTail hws hhexTail, hfin]
  · rw [parseInt_toString, numberOf_zero]
  · rw [parseInt_decimalLimitText ws plus zeros 0 tail hws htail (fun _ hz => hmark hz),
      numberOf_zero]
  · rw [parseInt_hexLimitText ws plus upperMark zeros 0 hexTail hws hhexTail, numberOf_zero]

theorem history_length_le_limit_witness :
    (∃ docs, history [oldDoc, thirdDoc, otherDoc] (some (toString 2)) = some docs ∧
      docs.length ≤ 2) ∧
    (∃ docs, history [oldDoc, thirdDoc, otherDoc]
      (some (decimalLimitText [' '] true 2 2 ['a', 'b', 'c'])) = some docs ∧
      docs.length ≤ 2) ∧
    (∃ docs, history [oldDoc, thirdDoc, otherDoc]
      (some (hexLimitText [' '] true false 2 2 ['p', 'x'])) = some docs ∧
      docs.length ≤ 2) ∧
    (∃ docs, history [oldDoc, thirdDoc, otherDoc] (some (toString 0)) = some docs ∧
      docs.length ≤ 30) ∧
    (((2 : Nat) = 0 → noRadixMark ['a', 'b', 'c'] = true) →
      ∃ docs, history [oldDoc, thirdDoc, otherDoc]
        (some (decimalLimitText [' '] true 2 0 ['a', 'b', 'c'])) = some docs ∧
        docs.length ≤ 30) ∧
    (∃ docs, history [oldDoc, thirdDoc, otherDoc]
      (some (hexLimitText [' '] true false 2 0 ['p', 'x'])) = some docs ∧
      docs.length ≤ 30) :=
  history_length_le_limit [oldDoc, thirdDoc, otherDoc] 2 (by decide) (by decide)
    [' '] true false 2 ['a', 'b', 'c'] ['p', 'x'] (by decide) (by decide) (by decide)

/-- Claim C7: for a collection with distinct dates the history is the first `n` elements
of the stored documents sorted by date string in descending order, that is of any
descending-sorted rearrangement `l` of the collection (all of them when at most `n` are
stored), where `n` is the positive limit of the caller, below `2 ^ 53`, written as plain
decimal text, or with white space, an optional `+`, leading zeros and the digits in decimal
or after `0x` in hexadecimal, followed by text that does not continue the digits; and it is
the first 30 when the limit parameter is absent or is not a number. -/
theorem history_newest_first (s l : List DailyWordSet) (hdistinct : UniqueDates s)
    (hperm : l.Perm s) (hsorted : l.Pairwise dateDesc) (n : Nat) (hpos : 0 < n)
    (hsafe : n < 2 ^ 53)
    (ws : List Char) (plus upperMark : Bool) (zeros : Nat) (tail hexTail : List Char)
    (hws : ∀ x ∈ ws, isJsWhitespace x = true)
    (htail : noDigitAhead 10 tail = true) (hhexTail : noDigitAhead 16 hexTail = true) :
    history s (some (toString n)) = some (l.take n) ∧
    history s (some (decimalLimitText ws plus zeros n tail)) = some (l.take n) ∧
    history s (some (hexLimitText ws plus upperMark zeros n hexTail)) = some (l.take n) ∧
    (s.length ≤ n → history s (some (toString n)) = some l) ∧
    history s none = some (l.take 30) ∧
    (∀ (sign : Option Char) (junk : List Char),
      sign = none ∨ sign = some '+' ∨ sign = some '-' →
      noNumberAhead sign.isSome junk = true →
      history s (some (nanLimitText ws sign junk)) = some (l.take 30)) ∧
    (∀ t : String, parseInt (some t) = .nan → history s (some t) = some (l.take 30)) := by
  have hsort := sortByDateDesc_unique s l hdistinct hperm hsorted
  have hfin : numberOf n = .finite (n : Int) := numberOf_small n hsafe
  have hplain : history s (some (toString n)) = some (l.take n) := by
    rw [history_of_finite s _ n (by rw [parseInt_toString, hfin]) hpos hsafe, hsort]
  refine ⟨hplain, ?_, ?_, ?_, ?_, ?_, ?_⟩
  · rw [history_of_finite s _ n ?_ hpos hsafe, hsort]
    rw [parseInt_decimalLimitText ws plus zeros n tail hws htail (fun h0 => by omega), hfin]
  · rw [history_of_finite s _ n ?_ hpos hsafe, hsort]
    rw [parseInt_hexLimitText ws plus upperMark zeros n hexTail hws hhexTail, hfin]
  · intro hlen
    rw [hplain, List.take_of_length_le (by rw [hperm.length_eq]; exact hlen)]
  · rw [history_of_nan s none rfl, hsort]
  · intro sign junk hsign hjunk
    rw [history_of_nan s _ (parseInt_nanLimitText ws sign junk hws hsign hjunk), hsort]
  · intro t ht
    rw [history_of_nan s (some t) ht, hsort]

theorem history_newest_first_witness :
    history [oldDoc, thirdDoc, otherDoc] (some (toString 2))
      = some ([thirdDoc, otherDoc, oldDoc].take 2) ∧
    history [oldDoc, thirdDoc, otherDoc]
        (some (decimalLimitText [' '] true 2 2 ['a', 'b', 'c']))
      = some ([thirdDoc, otherDoc, oldDoc].take 2) ∧
    history [oldDoc, thirdDoc, otherDoc] (some (hexLimitText [' '] true false 2 2 ['p', 'x']))
      = some ([thirdDoc, otherDoc, oldDoc].take 2) ∧
    ([oldDoc, thirdDoc, otherDoc].length ≤ 2 →
      history [oldDoc, thirdDoc, otherDoc] (some (toString 2))
        = some [thirdDoc, otherDoc, oldDoc]) ∧
    history [oldDoc, thirdDoc, otherDoc] none = some ([thirdDoc, otherDoc, oldDoc].take 30) ∧
    (∀ (sign : Option Char) (junk : List Char),
      sign = none ∨ sign = some '+' ∨ sign = some '-' →
      noNumberAhead sign.isSome junk = true →
      history [oldDoc, thirdDoc, otherDoc] (some (nanLimitText [' '] sign junk))
        = some ([thirdDoc, otherDoc, oldDoc].take 30)) ∧
    (∀ t : String, parseInt (some t) = .nan →
      history [oldDoc, thirdDoc, otherDoc] (some t)
        = some ([thirdDoc, otherDoc, oldDoc].take 30)) :=
  history_newest_first [oldDoc, thirdDoc, otherDoc] [thirdDoc, otherDoc, oldDoc]
    (by unfold UniqueDates; decide) (by decide) (by decide) 2 (by decide) (by decide)
    [' '] true false 2 ['a', 'b', 'c'] ['p', 'x'] (by decide) (by decide) (by decide)

/-- Claim C8: if the collection holds at most one document per date, it still does after
`getTodayWords` and after regenerate, for every date and every outcome of the generator;
hence so does every collection reached by a sequence of these calls, from that collection
and from the empty one. -/
theorem uniqueDates_invariant (parse : String → Except JsError Parsed) (s : Store)
    (hunique : UniqueDates s) (d : String) (now : Nat) (gen : GenOutcome) :
    UniqueDates (getTodayWords parse s d now gen).store ∧
    UniqueDates (regenerate parse s d now gen).store ∧
    (∀ calls : List Call, UniqueDates (runCalls parse s calls)) ∧
    (∀ calls : List Call, UniqueDates (runCalls parse [] calls)) :=
  ⟨uniqueDates_getTodayWords parse s d now gen hunique,
    uniqueDates_regenerate parse s d now gen hunique,
    fun calls => uniqueDates_runCalls parse calls s hunique,
    fun calls => uniqueDates_runCalls parse calls [] List.nodup_nil⟩

theorem uniqueDates_invariant_witness :
    UniqueDates [oldDoc, otherDoc] ∧
    UniqueDates (getTodayWords (parseTable [("[fresh]", .array freshEntries)])
      [oldDoc, otherDoc] "2024-01-03" 7 (.responded "[fresh]")).store ∧
    UniqueDates (regenerate (parseTable [("[fresh]", .array freshEntries)])
      [oldDoc, otherDoc] "2024-01-03" 7 (.responded "[fresh]")).store ∧
    (∀ calls : List Call,
      UniqueDates (runCalls (parseTable [("[fresh]", .array freshEntries)])
        [oldDoc, otherDoc] calls)) ∧
    (∀ calls : List Call,
      UniqueDates (runCalls (parseTable [("[fresh]", .array freshEntries)]) [] calls)) :=
  ⟨by unfold UniqueDates; decide,
    uniqueDates_invariant (parseTable [("[fresh]", .array freshEntries)]) [oldDoc, otherDoc]
      (by unfold UniqueDates; decide) "2024-01-03" 7 (.responded "[fresh]")⟩

/-- Claim C9 fails as stated: a request to the today endpoint whose JSON body is malformed
fails in `express.json()` before the handler runs; the answer is the page of the default
error handler with status 400, not the body `success: false` with the fixed message, and
for two different malformed bodies the two failure bodies differ. The same holds on the
history and the regenerate endpoint. -/
theorem middleware_failure_not_generic :
    (serveTodayWords false sampleBodyParse (some "[") rejectAll [] "2024-01-01" 7
        (.callFailed networkError)).1
      = { status := 400, body := .errorPage openBracketError.stack } ∧
    (serveTodayWords false sampleBodyParse (some "]") rejectAll [] "2024-01-01" 7
        (.callFailed networkError)).1
      = { status := 400, body := .errorPage closeBracketError.stack } ∧
    (serveTodayWords false sampleBodyParse (some "[") rejectAll [] "2024-01-01" 7
        (.callFailed networkError)).1.body
      ≠ (serveTodayWords false sampleBodyParse (some "]") rejectAll [] "2024-01-01" 7
        (.callFailed networkError)).1.body ∧
    (serveTodayWords false sampleBodyParse (some "[") rejectAll [] "2024-01-01" 7
        (.callFailed networkError)).1.body
      ≠ .failure "Failed to fetch today's words" ∧
    serveHistory false sampleBodyParse (some "[") [] none none
      ≠ serveHistory false sampleBodyParse (some "]") [] none none ∧
    (serveGenerateWords false sampleBodyParse (some "[") rejectAll [] "2024-01-01" 7
        (.callFailed networkError)).1.body
      ≠ (serveGenerateWords false sampleBodyParse (some "]") rejectAll [] "2024-01-01" 7
        (.callFailed networkError)).1.body := by
  decide

/-- Claim C9, amended: failure responses of the route handlers are generic. On each of the
three endpoints, when an error is raised while the handler runs (inside its try block: by
the content service, the generator or the database), the answer is status 500 with the
body `success: false` and the fixed message of the endpoint, so the bodies for any two such
errors are equal, whatever their name, message or stack. Every answer of an endpoint is its
success shape, that fixed failure, or the answer of the default error handler to a request
that `express.json()` rejected before the handler ran. -/
theorem failure_responses_generic
    (parse parse2 : String → Except JsError Parsed) (s s2 : Store) (d d2 : String)
    (now now2 : Nat) (gen gen2 : GenOutcome) (f f2 g g2 : Failure)
    (htoday : (getTodayWords parse s d now gen).result = .error f)
    (htoday2 : (getTodayWords parse2 s2 d2 now2 gen2).result = .error f2)
    (hregen : (regenerate parse s d now gen).result = .error g)
    (hregen2 : (regenerate parse2 s2 d2 now2 gen2).result = .error g2)
    (q q2 : Option String) (e e2 : JsError)
    (production : Bool) (bodyParse : String → Option JsError) (body : Option String)
    (fault : Option JsError) :
    (todayWordsHandler parse s d now gen).1
      = { status := 500, body := .failure "Failed to fetch today's words" } ∧
    (todayWordsHandler parse s d now gen).1.body
      = (todayWordsHandler parse2 s2 d2 now2 gen2).1.body ∧
    (generateWordsHandler parse s d now gen).1
      = { status := 500, body := .failure "Failed to generate words" } ∧
    (generateWordsHandler parse s d now gen).1.body
      = (generateWordsHandler parse2 s2 d2 now2 gen2).1.body ∧
    historyHandler s q (some e)
      = some { status := 500, body := .failure "Failed to fetch history" } ∧
    historyHandler s q (some e) = historyHandler s2 q2 (some e2) ∧
    (∀ (p : String → Except JsError Parsed) (st : Store) (day : String) (t : Nat)
        (o : GenOutcome),
      (serveTodayWords production bodyParse body p st day t o).1
        = { status := 500, body := .failure "Failed to fetch today's words" } ∨
      (∃ doc : DailyWordSet, (serveTodayWords production bodyParse body p st day t o).1
        = { status := 200, body := .todayWords doc.date doc.words }) ∨
      (∃ err, expressJson bodyParse body = some err ∧
        (serveTodayWords production bodyParse body p st day t o).1
          = defaultErrorResponse production err)) ∧
    (∀ (p : String → Except JsError Parsed) (st : Store) (day : String) (t : Nat)
        (o : GenOutcome),
      (serveGenerateWords production bodyParse body p st day t o).1
        = { status := 500, body := .failure "Failed to generate words" } ∨
      (∃ doc : DailyWordSet, (serveGenerateWords production bodyParse body p st day t o).1
        = { status := 200,
            body := .generated "New words generated successfully" doc.date doc.words }) ∨
      (∃ err, expressJson bodyParse body = some err ∧
        (serveGenerateWords production bodyParse body p st day t o).1
          = defaultErrorResponse production err)) ∧
    (∀ r, serveHistory production bodyParse body s q fault = some r →
      r = { status := 500, body := .failure "Failed to fetch history" } ∨
      (∃ docs : List DailyWordSet, r = { status := 200, body := .history docs }) ∨
      (∃ err, expressJson bodyParse body = some err ∧
        r = defaultErrorResponse production err)) := by
  have ht : (todayWordsHandler parse s d now gen).1
      = { status := 500, body := .failure "Failed to fetch today's words" } := by
    show todayWordsResponse (getTodayWords parse s d now gen).result = _
    rw [htoday]; rfl
  have ht2 : (todayWordsHandler parse2 s2 d2 now2 gen2).1
      = { status := 500, body := .failure "Failed to fetch today's words" } := by
    show todayWordsResponse (getTodayWords parse2 s2 d2 now2 gen2).result = _
    rw [htoday2]; rfl
  have hg : (generateWordsHandler parse s d now gen).1
      = { status := 500, body := .failure "Failed to generate words" } := by
    show generateWordsResponse (regenerate parse s d now gen).result = _
    rw [hregen]; rfl
  have hg2 : (generateWordsHandler parse2 s2 d2 now2 gen2).1
      = { status := 500, body := .failure "Failed to generate words" } := by
    show generateWordsResponse (regenerate parse2 s2 d2 now2 gen2).result = _
    rw [hregen2]; rfl
  have htodayShape : ∀ r : Except Failure DailyWordSet,
      todayWordsResponse r
        = { status := 500, body := .failure "Failed to fetch today's words" } ∨
      ∃ doc : DailyWordSet, todayWordsResponse r
        = { status := 200, body := .todayWords doc.date doc.words } := by
    intro r
    cases r with
    | error err => exact Or.inl rfl
    | ok doc => exact Or.inr ⟨doc, rfl⟩
  have hgenerateShape : ∀ r : Except Failure DailyWordSet,
      generateWordsResponse r
        = { status := 500, body := .failure "Failed to generate words" } ∨
      ∃ doc : DailyWordSet, generateWordsResponse r
        = { status := 200,
            body := .generated "New words generated successfully" doc.date doc.words } := by
    intro r
    cases r with
    | error err => exact Or.inl rfl
    | ok doc => exact Or.inr ⟨doc, rfl⟩
  refine ⟨ht, by rw [ht, ht2], hg, by rw [hg, hg2], rfl, rfl, ?_, ?_, ?_⟩
  · intro p st day t o
    unfold serveTodayWords
    cases hmw : expressJson bodyParse body with
    | some err => exact Or.inr (Or.inr ⟨err, rfl, rfl⟩)
    | none =>
      rcases htodayShape (getTodayWords p st day t o).result with h | ⟨doc, h⟩
      · exact Or.inl h
      · exact Or.inr (Or.inl ⟨doc, h⟩)
  · intro p st day t o
    unfold serveGenerateWords
    cases hmw : expressJson bodyParse body with
    | some err => exact Or.inr (Or.inr ⟨err, rfl, rfl⟩)
    | none =>
      rcases hgenerateShape (regenerate p st day t o).result with h | ⟨doc, h⟩
      · exact Or.inl h
      · exact Or.inr (Or.inl ⟨doc, h⟩)
  · intro r hr
    unfold serveHistory at hr
    cases hmw : expressJson bodyParse body with
    | some err =>
      rw [hmw] at hr
      simp only [Option.some.injEq] at hr
      exact Or.inr (Or.inr ⟨err, rfl, hr.symm⟩)
    | none =>
      rw [hmw] at hr
      simp only [historyHandler, Option.map_eq_some'] at hr
      obtain ⟨outcome, _, rfl⟩ := hr
      cases outcome with
      | error err => exact Or.inl rfl
      | ok docs => exact Or.inr (Or.inl ⟨docs, rfl⟩)

theorem failure_responses_generic_witness :
    (todayWordsHandler rejectAll [] "2024-01-01" 7 (.callFailed networkError)).1
      = { status := 500, body := .failure "Failed to fetch today's words" } ∧
    (todayWordsHandler rejectAll [] "2024-01-01" 7 (.callFailed networkError)).1.body
      = (todayWordsHandler (parseTable [("[nine]", .array nineEntries)]) [otherDoc]
          "2024-01-03" 9 (.responded "[nine]")).1.body ∧
    (generateWordsHandler rejectAll [] "2024-01-01" 7 (.callFailed networkError)).1
      = { status := 500, body := .failure "Failed to generate words" } ∧
    (generateWordsHandler rejectAll [] "2024-01-01" 7 (.callFailed networkError)).1.body
      = (generateWordsHandler (parseTable [("[nine]", .array nineEntries)]) [otherDoc]
          "2024-01-03" 9 (.responded "[nine]")).1.body ∧
    historyHandler [] (some "5") (some networkError)
      = some { status := 500, body := .failure "Failed to fetch history" } ∧
    historyHandler [] (some "5") (some networkError)
      = historyHandler [otherDoc] none (some syntaxError) ∧
    (∀ (p : String → Except JsError Parsed) (st : Store) (day : String) (t : Nat)
        (o : GenOutcome),
      (serveTodayWords false sampleBodyParse (some "[") p st day t o).1
        = { status := 500, body := .failure "Failed to fetch today's words" } ∨
      (∃ doc : DailyWordSet, (serveTodayWords false sampleBodyParse (some "[") p st day t o).1
        = { status := 200, body := .todayWords doc.date doc.words }) ∨
      (∃ err, expressJson sampleBodyParse (some "[") = some err ∧
        (serveTodayWords false sampleBodyParse (some "[") p st day t o).1
          = defaultErrorResponse false err)) ∧
    (∀ (p : String → Except JsError Parsed) (st : Store) (day : String) (t : Nat)
        (o : GenOutcome),
      (serveGenerateWords false sampleBodyParse (some "[") p st day t o).1
        = { status := 500, body := .failure "Failed to generate words" } ∨
      (∃ doc : DailyWordSet,
        (serveGenerateWords false sampleBodyParse (some "[") p st day t o).1
        = { status := 200,
            body := .generated "New words generated successfully" doc.date doc.words }) ∨
      (∃ err, expressJson sampleBodyParse (some "[") = some err ∧
        (serveGenerateWords false sampleBodyParse (some "[") p st day t o).1
          = defaultErrorResponse false err)) ∧
    (∀ r, serveHistory false sampleBodyParse (some "[") [] (some "5") none = some r →
      r = { status := 500, body := .failure "Failed to fetch history" } ∨
      (∃ docs : List DailyWordSet, r = { status := 200, body := .history docs }) ∨
      (∃ err, expressJson sampleBodyParse (some "[") = some err ∧
        r = defaultErrorResponse false err)) :=
  failure_responses_generic rejectAll (parseTable [("[nine]", .array nineEntries)]) []
    [otherDoc] "2024-01-01" "2024-01-03" 7 9 (.callFailed networkError) (.responded "[nine]")
    (.external networkError) .badFormat (.external networkError) .badFormat
    (by decide) (by decide) (by decide) (by decide)
    (some "5") none networkError syntaxError false sampleBodyParse (some "[") none

/-- Claim C10: for every text `s` without three backticks in a row, cleaning the fenced
text (opening fence with `json` and a line feed, `s`, a line feed and the closing fence)
yields `s` followed by one line feed; hence a parser that ignores one trailing line feed,
as `JSON.parse` does, reads the fenced response as it reads `s`. -/
theorem cleanText_fenced (s : String) (hclean : hasTripleTick s.data = false) :
    cleanText (fenced s) = s ++ "\n" ∧
    (∀ parse : String → Except JsError Parsed, (∀ t, parse (t ++ "\n") = parse t) →
      parse (cleanText (fenced s)) = parse s) := by
  have hmain : cleanText (fenced s) = s ++ "\n" := by
    apply String.ext
    show cleanChars (fenced s).data = (s ++ "\n").data
    rw [fenced_data, cleanChars_fenced s.data hclean]
    simp
  refine ⟨hmain, ?_⟩
  intro parse hparse
  rw [hmain, hparse]

theorem cleanText_fenced_witness :
    cleanText (fenced "[1, 2]") = "[1, 2]" ++ "\n" ∧
    (∀ parse : String → Except JsError Parsed, (∀ t, parse (t ++ "\n") = parse t) →
      parse (cleanText (fenced "[1, 2]")) = parse "[1, 2]") :=
  cleanText_fenced "[1, 2]" (by decide)

end DailyVocab
